import Mathlib

/-!
Verification of the feed-agent ingestion-to-digest pipeline.

This file gives a shallow embedding of the core operations of the
repository (`src/storage/cache.py`, `src/storage/db.py`,
`src/ingest/feeds.py`, `src/analyze/summarizer.py`,
`src/analyze/digest_builder.py`) and proves or refutes the specified
properties about them.

Modelling conventions:
- Machine integers are `Nat`/`Int` with explicit `% 2 ^ 32` where the
  source relies on 32-bit overflow (SHA-256).
- Cache timestamps are `Int` instants (seconds): the cache writes only
  `datetime.now(timezone.utc).isoformat()` strings, and for those
  uniformly-rendered UTC strings the SQL TEXT comparisons coincide
  with the instant order.
- Article publish timestamps are NOT uniform: `_parse_entry_date`
  preserves the source feed's UTC offset (dateutil), so a Python
  datetime is modelled as its civil fields plus UTC offset
  (`PyDatetime`), the `articles.published` column as the stored
  `isoformat()` TEXT (`String`), and the SQL comparisons on that
  column as SQLite's BINARY-collation TEXT comparison (`textLe`).
  Sub-second precision (microseconds) is not modelled; the feed-date
  paths produce whole seconds.
- A SQLite table is a list of rows; the `PRIMARY KEY` / `UNIQUE`
  constraints are enforced by the modelled operations exactly where the
  SQL enforces them (`INSERT OR IGNORE`, `INSERT OR REPLACE`).
- `json.dumps`/`json.loads` round-tripping of a JSON-serialisable value
  is the identity, so a cached value is stored at its own type.
- Python exceptions are modelled with `Except`/`Option`.
-/

namespace FeedAgent

/-! ### SHA-256 (model of the external `hashlib.sha256(...).hexdigest()`)

`src/storage/cache.py` and `src/ingest/feeds.py` call
`hashlib.sha256(raw.encode()).hexdigest()`.  `hashlib` is an external
library; it is modelled here by a full executable SHA-256 over the
UTF-8 bytes of the input, producing the 64-character lowercase hex
digest. -/

/-- Lowercase hexadecimal digit for a nibble. -/
def hexDigit (n : Nat) : Char :=
  if n < 10 then Char.ofNat (48 + n) else Char.ofNat (87 + n)

/-- Big-endian lowercase hex rendering of a 32-bit word. -/
def wordToHex (w : Nat) : String :=
  String.mk ((List.range 8).map fun i => hexDigit ((w >>> (28 - 4 * i)) % 16))

/-- Right rotation of a 32-bit word. -/
def rotr32 (n x : Nat) : Nat :=
  ((x >>> n) ||| (x <<< (32 - n))) % 4294967296

/-- The 64 SHA-256 round constants (decimal). -/
def shaK : List Nat :=
  [1116352408, 1899447441, 3049323471, 3921009573, 961987163, 1508970993,
   2453635748, 2870763221, 3624381080, 310598401, 607225278, 1426881987,
   1925078388, 2162078206, 2614888103, 3248222580, 3835390401, 4022224774,
   264347078, 604807628, 770255983, 1249150122, 1555081692, 1996064986,
   2554220882, 2821834349, 2952996808, 3210313671, 3336571891, 3584528711,
   113926993, 338241895, 666307205, 773529912, 1294757372, 1396182291,
   1695183700, 1986661051, 2177026350, 2456956037, 2730485921, 2820302411,
   3259730800, 3345764771, 3516065817, 3600352804, 4094571909, 275423344,
   430227734, 506948616, 659060556, 883997877, 958139571, 1322822218,
   1537002063, 1747873779, 1955562222, 2024104815, 2227730452, 2361852424,
   2428436474, 2756734187, 3204031479, 3329325298]

/-- The eight 32-bit working variables of SHA-256. -/
structure Sha256State where
  a : Nat
  b : Nat
  c : Nat
  d : Nat
  e : Nat
  f : Nat
  g : Nat
  h : Nat
  deriving Repr, DecidableEq

/-- SHA-256 initial hash value (decimal). -/
def shaInit : Sha256State :=
  ⟨1779033703, 3144134277, 1013904242, 2773480762,
   1359893119, 2600822924, 528734635, 1541459225⟩

/-- One SHA-256 round, consuming a round constant and a schedule word. -/
def shaStep (st : Sha256State) (kw : Nat × Nat) : Sha256State :=
  let s1 := (rotr32 6 st.e) ^^^ (rotr32 11 st.e) ^^^ (rotr32 25 st.e)
  let ch := (st.e &&& st.f) ^^^ ((st.e ^^^ 4294967295) &&& st.g)
  let temp1 := (st.h + s1 + ch + kw.1 + kw.2) % 4294967296
  let s0 := (rotr32 2 st.a) ^^^ (rotr32 13 st.a) ^^^ (rotr32 22 st.a)
  let maj := (st.a &&& st.b) ^^^ (st.a &&& st.c) ^^^ (st.b &&& st.c)
  let temp2 := (s0 + maj) % 4294967296
  ⟨(temp1 + temp2) % 4294967296, st.a, st.b, st.c,
   (st.d + temp1) % 4294967296, st.e, st.f, st.g⟩

/-- The 16 big-endian words of a 64-byte block. -/
def bytesToWords (block : List Nat) : List Nat :=
  (List.range 16).map fun i =>
    block.getD (4 * i) 0 * 16777216 + block.getD (4 * i + 1) 0 * 65536 +
      block.getD (4 * i + 2) 0 * 256 + block.getD (4 * i + 3) 0

/-- Extend the 16 block words to the 64-entry message schedule. -/
def shaSchedule (block : List Nat) : List Nat :=
  (List.range 48).foldl
    (fun ws j =>
      let w1 := ws.getD (j + 1) 0
      let w14 := ws.getD (j + 14) 0
      let s0 := (rotr32 7 w1) ^^^ (rotr32 18 w1) ^^^ (w1 >>> 3)
      let s1 := (rotr32 17 w14) ^^^ (rotr32 19 w14) ^^^ (w14 >>> 10)
      ws ++ [(ws.getD j 0 + s0 + ws.getD (j + 9) 0 + s1) % 4294967296])
    (bytesToWords block)

/-- Compress one 64-byte block into the running state. -/
def shaCompress (st : Sha256State) (block : List Nat) : Sha256State :=
  let fin := (shaK.zip (shaSchedule block)).foldl shaStep st
  ⟨(st.a + fin.a) % 4294967296, (st.b + fin.b) % 4294967296,
   (st.c + fin.c) % 4294967296, (st.d + fin.d) % 4294967296,
   (st.e + fin.e) % 4294967296, (st.f + fin.f) % 4294967296,
   (st.g + fin.g) % 4294967296, (st.h + fin.h) % 4294967296⟩

/-- SHA-256 padding: `0x80`, zeros, then the 64-bit big-endian bit length. -/
def shaPad (msg : List Nat) : List Nat :=
  let len := msg.length
  let zeros := (64 - ((len + 9) % 64)) % 64
  msg ++ [128] ++ List.replicate zeros 0 ++
    (List.range 8).map fun i => ((len * 8) >>> (56 - 8 * i)) % 256

/-- UTF-8 encoding of one character (the byte layout of
`String.utf8EncodeChar`, over `Nat`). -/
def utf8Enc (c : Char) : List Nat :=
  let v := c.toNat
  if v < 128 then [v]
  else if v < 2048 then [192 ||| (v >>> 6), 128 ||| (v &&& 63)]
  else if v < 65536 then
    [224 ||| (v >>> 12), 128 ||| ((v >>> 6) &&& 63), 128 ||| (v &&& 63)]
  else
    [240 ||| (v >>> 18), 128 ||| ((v >>> 12) &&& 63),
     128 ||| ((v >>> 6) &&& 63), 128 ||| (v &&& 63)]

/-- The UTF-8 bytes of a string (`s.encode()`). -/
def utf8Bytes (s : String) : List Nat :=
  s.data.flatMap utf8Enc

/-- `hashlib.sha256(s.encode()).hexdigest()`: SHA-256 of the UTF-8 bytes
of `s`, as a 64-character lowercase hex string. -/
def sha256hex (s : String) : String :=
  let padded := shaPad (utf8Bytes s)
  let st := (List.range (padded.length / 64)).foldl
    (fun st i => shaCompress st ((padded.drop (64 * i)).take 64)) shaInit
  wordToHex st.a ++ wordToHex st.b ++ wordToHex st.c ++ wordToHex st.d ++
    wordToHex st.e ++ wordToHex st.f ++ wordToHex st.g ++ wordToHex st.h

/-! ### Response cache (`src/storage/cache.py`)

The `cache` table has `PRIMARY KEY (kind, key)`; a table state is a
list of rows with that key unique (the modelled operations preserve
it).  The stored `value` TEXT is `json.dumps` of a JSON-serialisable
value and `get` returns `json.loads` of it; since that round-trip is
the identity, the row stores the value at its own type `α`. -/

/-- A row of the `cache` table.  `created_at` and `expires_at` are the
stored ISO-8601 instants, modelled as `Int` (see file header). -/
structure CacheRow (α : Type) where
  kind : String
  key : String
  value : α
  created_at : Int
  expires_at : Int
  deriving Repr, DecidableEq

/-- `make_cache_key`: the pre-hash identity string `f"{article_id}:{model}"`
(local variable `raw` in the source). -/
def cacheKeyRaw (article_id model : String) : String :=
  article_id ++ ":" ++ model

/-- `make_cache_key(article_id, model)`: SHA-256 hex digest of
`f"{article_id}:{model}"`. -/
def make_cache_key (article_id model : String) : String :=
  sha256hex (cacheKeyRaw article_id model)

/-- `CacheStore.get(kind, key)`:
`SELECT value FROM cache WHERE kind = ? AND key = ? AND expires_at > ?`
with `?` bound to `datetime.now(timezone.utc).isoformat()`; returns the
(decoded) value or `None`. -/
def CacheStore.get (table : List (CacheRow α)) (kind key : String) (now : Int) :
    Option α :=
  (table.find? fun r =>
    r.kind == kind && r.key == key && decide (now < r.expires_at)).map
    (fun r => r.value)

/-- `CacheStore.set(kind, key, value, ttl_days)`:
`INSERT OR REPLACE` of the row with `expires_at = now + timedelta(days=ttl)`
(with `ttl` defaulting to `default_ttl_days`), followed by the lazy
cleanup `DELETE FROM cache WHERE expires_at <= now`.  The two
`datetime.now` calls of the source are modelled at the same instant
`now`; a day is 86400 seconds. -/
def CacheStore.set (table : List (CacheRow α)) (kind key : String) (value : α)
    (ttl_days : Option Int) (default_ttl_days : Int) (now : Int) :
    List (CacheRow α) :=
  let ttl := ttl_days.getD default_ttl_days
  let expires_at := now + ttl * 86400
  let afterReplace :=
    table.filter (fun r => !(r.kind == kind && r.key == key)) ++
      [⟨kind, key, value, now, expires_at⟩]
  afterReplace.filter fun r => decide (now < r.expires_at)

/-- `CacheStore.clear(kind)`: Python checks `if kind:`, which is false
both for `None` and for the empty string, so an empty-string `kind`
takes the `DELETE FROM cache` (delete-everything) branch.  Returns the
remaining table and `cursor.rowcount`, the number of deleted rows. -/
def CacheStore.clear (table : List (CacheRow α)) (kind : Option String) :
    List (CacheRow α) × Nat :=
  match kind with
  | some k =>
      if k = "" then ([], table.length)
      else ((table.filter fun r => !(r.kind == k)),
            (table.filter fun r => r.kind == k).length)
  | none => ([], table.length)

/-! ### Claims C3, C4, C10 (cache layer) -/

/-- If two lists split at a marker element absent from both left parts are
equal, the parts agree. -/
theorem append_marker_inj {α : Type} {c : α} {l₁ r₁ l₂ r₂ : List α}
    (h₁ : c ∉ l₁) (h₂ : c ∉ l₂) (h : l₁ ++ c :: r₁ = l₂ ++ c :: r₂) :
    l₁ = l₂ ∧ r₁ = r₂ := by
  induction l₁ generalizing l₂ with
  | nil =>
    cases l₂ with
    | nil => simpa using h
    | cons x xs =>
      simp only [List.nil_append, List.cons_append, List.cons.injEq] at h
      exact absurd (h.1 ▸ List.mem_cons_self x xs) h₂
  | cons y ys ih =>
    cases l₂ with
    | nil =>
      simp only [List.cons_append, List.nil_append, List.cons.injEq] at h
      exact absurd (h.1.symm ▸ List.mem_cons_self y ys) h₁
    | cons x xs =>
      simp only [List.cons_append, List.cons.injEq] at h
      obtain ⟨rfl, h⟩ := h
      obtain ⟨hl, hr⟩ := ih (fun hm => h₁ (List.mem_cons_of_mem _ hm))
        (fun hm => h₂ (List.mem_cons_of_mem _ hm)) h
      exact ⟨by rw [hl], hr⟩

/-- The pre-hash identity string of `make_cache_key` separates its two
components whenever the article id contains no colon. -/
theorem cacheKeyRaw_inj {a₁ m₁ a₂ m₂ : String}
    (h₁ : ':' ∉ a₁.data) (h₂ : ':' ∉ a₂.data)
    (h : cacheKeyRaw a₁ m₁ = cacheKeyRaw a₂ m₂) : a₁ = a₂ ∧ m₁ = m₂ := by
  have hcolon : (":" : String).data = [':'] := rfl
  have hd : a₁.data ++ ':' :: m₁.data = a₂.data ++ ':' :: m₂.data := by
    have := congrArg String.data h
    simpa [cacheKeyRaw, String.data_append, hcolon] using this
  obtain ⟨ha, hm⟩ := append_marker_inj h₁ h₂ hd
  exact ⟨String.ext ha, String.ext hm⟩

/-- **C4** (counterexample).  The claim "make_cache_key is injective on
distinct (articleId, model) pairs" is false as stated: the pre-hash
string is `f"{article_id}:{model}"`, so the two distinct pairs
`("a:b", "c")` and `("a", "b:c")` both produce the raw string
`"a:b:c"` and hence the same SHA-256 key. -/
theorem c4_counterexample :
    (("a:b", "c") : String × String) ≠ ("a", "b:c") ∧
    make_cache_key "a:b" "c" = make_cache_key "a" "b:c" :=
  ⟨by decide, congrArg sha256hex (by decide)⟩

/-- **C4** (amended).  `make_cache_key` is deterministic (repeated calls
on an identical pair return equal keys), and for distinct pairs whose
article ids contain no colon the pre-hash identity strings are
distinct, so the derived keys can only coincide through a SHA-256
collision. -/
theorem c4_theorem (a₁ m₁ a₂ m₂ : String)
    (h₁ : ':' ∉ a₁.data) (h₂ : ':' ∉ a₂.data)
    (hne : (a₁, m₁) ≠ (a₂, m₂)) :
    make_cache_key a₁ m₁ = make_cache_key a₁ m₁ ∧
    cacheKeyRaw a₁ m₁ ≠ cacheKeyRaw a₂ m₂ := by
  refine ⟨rfl, fun h => hne ?_⟩
  obtain ⟨ha, hm⟩ := cacheKeyRaw_inj h₁ h₂ h
  rw [ha, hm]

/-- Witness for C4 at a concrete input. -/
theorem c4_witness :
    (':' ∉ ("art1" : String).data ∧ ':' ∉ ("art2" : String).data ∧
      (("art1", "m") : String × String) ≠ ("art2", "m")) ∧
    (make_cache_key "art1" "m" = make_cache_key "art1" "m" ∧
      cacheKeyRaw "art1" "m" ≠ cacheKeyRaw "art2" "m") :=
  ⟨⟨by decide, by decide, by decide⟩,
    c4_theorem "art1" "m" "art2" "m" (by decide) (by decide) (by decide)⟩

/-- **C3**.  `get` immediately after `set` with a positive TTL returns
the value that was set, and `get` never returns an entry whose expiry
is not strictly in the future, even when such an entry is still
physically present in the table. -/
theorem c3_theorem {α : Type} (table : List (CacheRow α)) (kind key : String)
    (value : α) (ttl default_ttl now : Int) (httl : 0 < ttl) :
    CacheStore.get (CacheStore.set table kind key value (some ttl) default_ttl now)
        kind key now = some value ∧
    ∀ t : List (CacheRow α),
      (∀ r ∈ t, r.kind = kind → r.key = key → r.expires_at ≤ now) →
      CacheStore.get t kind key now = none := by
  constructor
  · have hexp : now < now + ttl * 86400 := by
      have : (0 : Int) < ttl * 86400 := by positivity
      omega
    unfold CacheStore.get CacheStore.set
    rw [List.filter_append, List.find?_append]
    have hleft :
        List.find?
          (fun r => r.kind == kind && r.key == key && decide (now < r.expires_at))
          ((table.filter fun r => !(r.kind == kind && r.key == key)).filter
            fun r => decide (now < r.expires_at)) = none := by
      rw [List.find?_eq_none]
      intro r hr
      have hr1 := (List.mem_filter.mp (List.mem_filter.mp hr).1).2
      simp only [Bool.not_eq_true', Bool.and_eq_false_iff] at hr1
      simp only [Bool.and_eq_true, not_and, and_imp]
      intro hk hkey
      cases hr1 with
      | inl h => rw [hk] at h; cases h
      | inr h => rw [hkey] at h; cases h
    rw [hleft]
    simp [hexp]
  · intro t ht
    unfold CacheStore.get
    rw [List.find?_eq_none.mpr, Option.map_none']
    intro r hr
    simp only [Bool.and_eq_true, beq_iff_eq, decide_eq_true_eq]
    rintro ⟨⟨hk, hkey⟩, hlt⟩
    exact absurd hlt (not_lt.mpr (ht r hr hk hkey))

/-- Witness for C3 at a concrete input. -/
theorem c3_witness :
    (0 : Int) < 7 ∧
    (CacheStore.get
        (CacheStore.set ([] : List (CacheRow String)) "summary" "k" "v"
          (some 7) 7 1000) "summary" "k" 1000 = some "v" ∧
      ∀ t : List (CacheRow String),
        (∀ r ∈ t, r.kind = "summary" → r.key = "k" → r.expires_at ≤ 1000) →
        CacheStore.get t "summary" "k" 1000 = none) :=
  ⟨by decide, c3_theorem [] "summary" "k" "v" 7 7 1000 (by decide)⟩

/-- **C10** (counterexample).  The claim "for every kind k, clear(k)
removes exactly the entries whose kind equals k and returns their
count" is false at `k = ""`: Python's `if kind:` treats the empty
string like `None`, so `clear("")` deletes the whole table.  In the
table below only one entry has kind `""`, yet `clear("")` deletes both
rows and returns 2. -/
theorem c10_counterexample :
    CacheStore.clear
        [(⟨"summary", "k1", "v1", 0, 100⟩ : CacheRow String),
         ⟨"", "k2", "v2", 0, 100⟩] (some "") = ([], 2) ∧
    (([(⟨"summary", "k1", "v1", 0, 100⟩ : CacheRow String),
       ⟨"", "k2", "v2", 0, 100⟩].filter fun r => r.kind == "").length) = 1 := by
  decide

/-- **C10** (amended).  For every non-empty kind `k`, `clear(k)` removes
exactly the entries of kind `k` (leaving every other entry unchanged,
in order) and returns their count; `clear()` with no kind removes all
entries and returns the total count. -/
theorem c10_theorem {α : Type} (table : List (CacheRow α)) (k : String)
    (hk : k ≠ "") :
    CacheStore.clear table (some k) =
      ((table.filter fun r => !(r.kind == k)),
       (table.filter fun r => r.kind == k).length) ∧
    CacheStore.clear table none = ([], table.length) := by
  refine ⟨?_, rfl⟩
  have h1 : CacheStore.clear table (some k) =
      if k = "" then ([], table.length)
      else ((table.filter fun r => !(r.kind == k)),
            (table.filter fun r => r.kind == k).length) := rfl
  rw [h1, if_neg hk]

/-- Witness for C10 at a concrete input. -/
theorem c10_witness :
    ("summary" : String) ≠ "" ∧
    (CacheStore.clear
        [(⟨"summary", "k1", "v1", 0, 100⟩ : CacheRow String),
         ⟨"other", "k2", "v2", 0, 100⟩] (some "summary") =
      (([(⟨"summary", "k1", "v1", 0, 100⟩ : CacheRow String),
         ⟨"other", "k2", "v2", 0, 100⟩].filter fun r => !(r.kind == "summary")),
       ([(⟨"summary", "k1", "v1", 0, 100⟩ : CacheRow String),
         ⟨"other", "k2", "v2", 0, 100⟩].filter fun r => r.kind == "summary").length) ∧
      CacheStore.clear
        [(⟨"summary", "k1", "v1", 0, 100⟩ : CacheRow String),
         ⟨"other", "k2", "v2", 0, 100⟩] none =
        ([], [(⟨"summary", "k1", "v1", 0, 100⟩ : CacheRow String),
              ⟨"other", "k2", "v2", 0, 100⟩].length)) :=
  ⟨by decide, c10_theorem _ "summary" (by decide)⟩

/-! ### Python datetimes and the stored `published` TEXT

A tz-aware Python `datetime` stores civil fields plus a UTC offset;
`isoformat()` renders them as `YYYY-MM-DDTHH:MM:SS±HH:MM`.  SQLite
compares TEXT columns with the BINARY collation (memcmp of the UTF-8
bytes), which for these ASCII strings is the character-wise
lexicographic order modelled by `textLtB`/`textLe` below. -/

/-- A tz-aware Python `datetime`: civil fields plus the UTC offset in
seconds (`utcoffset()`).  Microseconds are not modelled (the pipeline's
feed-date paths produce whole seconds). -/
structure PyDatetime where
  year : Nat
  month : Nat
  day : Nat
  hour : Nat
  minute : Nat
  second : Nat
  offset : Int
  deriving Repr, DecidableEq

/-- The decimal digit character for `n < 10`. -/
def digitCh (n : Nat) : Char :=
  Char.ofNat (48 + n)

/-- Two-digit zero-padded decimal rendering (for `n < 100`). -/
def pad2 (n : Nat) : List Char :=
  [digitCh (n / 10), digitCh (n % 10)]

/-- Four-digit zero-padded decimal rendering (for `n < 10000`). -/
def pad4 (n : Nat) : List Char :=
  pad2 (n / 100) ++ pad2 (n % 100)

/-- The `±HH:MM` tail `isoformat()` renders for a UTC offset. -/
def offsetChars (o : Int) : List Char :=
  let a := o.natAbs
  (if o < 0 then '-' else '+') :: (pad2 (a / 3600) ++ ':' :: pad2 ((a % 3600) / 60))

/-- `datetime.isoformat()` of a tz-aware datetime (seconds precision):
`YYYY-MM-DDTHH:MM:SS±HH:MM`. -/
def pyIsoformat (dt : PyDatetime) : String :=
  ⟨pad4 dt.year ++ '-' :: pad2 dt.month ++ '-' :: pad2 dt.day ++ 'T' ::
    pad2 dt.hour ++ ':' :: pad2 dt.minute ++ ':' :: pad2 dt.second ++
    offsetChars dt.offset⟩

/-- Days since the Unix epoch of a civil date (proleptic Gregorian,
Hinnant's algorithm; exact for the positive years the pipeline sees). -/
def daysFromCivil (y m d : Nat) : Int :=
  let yy := if m ≤ 2 then y - 1 else y
  let era := yy / 400
  let yoe := yy % 400
  let mp := (m + 9) % 12
  let doy := (153 * mp + 2) / 5 + d - 1
  let doe := yoe * 365 + yoe / 4 - yoe / 100 + doy
  (era : Int) * 146097 + (doe : Int) - 719468

/-- The instant (Unix seconds) a tz-aware datetime denotes
(`timestamp()`); Python compares tz-aware datetimes by this value. -/
def PyDatetime.toInstant (dt : PyDatetime) : Int :=
  daysFromCivil dt.year dt.month dt.day * 86400 +
    (dt.hour * 3600 + dt.minute * 60 + dt.second : Nat) - dt.offset

/-- SQLite BINARY-collation TEXT strict comparison (memcmp of the UTF-8
bytes), on the characters: exact for the ASCII timestamps stored here. -/
def textLtB : List Char → List Char → Bool
  | [], [] => false
  | [], _ :: _ => true
  | _ :: _, [] => false
  | c :: l1, d :: l2 => if c < d then true else if d < c then false else textLtB l1 l2

/-- SQLite TEXT `<=` on strings (`¬ b < a`). -/
def textLe (a b : String) : Bool :=
  !(textLtB b.data a.data)

/-- The local civil timestamp of a datetime as the number
`YYYYMMDDHHMMSS`; for datetimes with equal UTC offsets, comparing these
keys is exactly Python's datetime comparison (publish-time order). -/
def naiveKey (dt : PyDatetime) : Nat :=
  ((((dt.year * 100 + dt.month) * 100 + dt.day) * 100 + dt.hour) * 100 +
      dt.minute) * 100 + dt.second

/-- The field bounds under which the zero-padded `isoformat` rendering
is well-formed (every valid Python datetime satisfies them). -/
def PadOK (dt : PyDatetime) : Prop :=
  dt.year < 10000 ∧ dt.month < 100 ∧ dt.day < 100 ∧ dt.hour < 100 ∧
    dt.minute < 100 ∧ dt.second < 100

instance (dt : PyDatetime) : Decidable (PadOK dt) := by
  unfold PadOK
  infer_instance

/-! ### Data model (`src/models.py`) and article store (`src/storage/db.py`) -/

/-- `ArticleStatus` (`src/models.py`). -/
inductive ArticleStatus
  | pending
  | processing
  | summarized
  | failed
  | skipped
  deriving Repr, DecidableEq

/-- The `.value` string of an `ArticleStatus` member. -/
def ArticleStatus.value : ArticleStatus → String
  | .pending => "pending"
  | .processing => "processing"
  | .summarized => "summarized"
  | .failed => "failed"
  | .skipped => "skipped"

/-- `Article` (`src/models.py`).  `published` is the tz-aware datetime
(see `PyDatetime`); `url` is the canonical URL string
(`str(article.url)`). -/
structure Article where
  id : String
  url : String
  title : String
  author : String := "Unknown"
  feed_name : String
  feed_url : String
  published : PyDatetime
  content : String := ""
  word_count : Int := 0
  category : String := "Uncategorized"
  status : ArticleStatus := .pending
  summary : Option String := none
  key_takeaways : List String := []
  action_items : List String := []
  deriving Repr, DecidableEq

/-- A row of the `articles` table (`src/storage/db.py`).  `status` is
the stored TEXT; `published` is the stored
`article.published.isoformat()` TEXT; `key_takeaways`/`action_items`
are the stored JSON arrays (JSON round-trip is the identity, see file
header).  The bookkeeping columns `created_at`/`updated_at` (DB-side
`CURRENT_TIMESTAMP` defaults) are not modelled; no claim concerns
them. -/
structure ArticleRow where
  id : String
  url : String
  title : String
  author : String
  feed_name : String
  feed_url : String
  published : String
  content : String
  word_count : Int
  category : String
  status : String
  summary : Option String
  key_takeaways : List String
  action_items : List String
  deriving Repr, DecidableEq

/-- The row inserted by `Database.save_article` for an article. -/
def articleToRow (a : Article) : ArticleRow where
  id := a.id
  url := a.url
  title := a.title
  author := a.author
  feed_name := a.feed_name
  feed_url := a.feed_url
  published := pyIsoformat a.published
  content := a.content
  word_count := a.word_count
  category := a.category
  status := a.status.value
  summary := a.summary
  key_takeaways := a.key_takeaways
  action_items := a.action_items

/-- `Database.save_article`: `INSERT OR IGNORE INTO articles ...`.
The insert is ignored exactly when it would violate a constraint:
`id` is the `PRIMARY KEY` and `url` is `UNIQUE`.  Returns
`cursor.rowcount > 0` (whether a row was inserted) and the new table. -/
def Database.save_article (table : List ArticleRow) (article : Article) :
    Bool × List ArticleRow :=
  if table.any fun r => r.id == article.id || r.url == article.url then
    (false, table)
  else
    (true, table ++ [articleToRow article])

/-- Repeated `save_article` calls, returning each call's boolean result
and the final table. -/
def saveAll (table : List ArticleRow) : List Article → List Bool × List ArticleRow
  | [] => ([], table)
  | a :: rest =>
      let s := Database.save_article table a
      let s' := saveAll s.2 rest
      (s.1 :: s'.1, s'.2)

/-- Descending insertion by the stored `published` TEXT (used to model
SQL `ORDER BY published DESC`, BINARY collation). -/
def insertPD (r : ArticleRow) : List ArticleRow → List ArticleRow
  | [] => [r]
  | x :: xs =>
      if textLe x.published r.published then r :: x :: xs
      else x :: insertPD r xs

/-- Sort rows by `published`, most recent first (`ORDER BY published DESC`). -/
def sortByPublishedDesc (l : List ArticleRow) : List ArticleRow :=
  l.foldr insertPD []

/-- `Database.get_pending_articles(limit)`:
`SELECT * FROM articles WHERE status = 'pending' ORDER BY published DESC LIMIT ?`. -/
def Database.get_pending_articles (table : List ArticleRow) (limit : Nat) :
    List ArticleRow :=
  (sortByPublishedDesc (table.filter fun r => r.status == "pending")).take limit

/-- `Database.get_articles_since(since, status)`: filters
`published >= ?` with `?` bound to `since.isoformat()` (TEXT
comparison), and `status = ?` when a status is passed (Python
`if status:` is true for every enum member), then orders by
`published DESC`. -/
def Database.get_articles_since (table : List ArticleRow) (since : PyDatetime)
    (status : Option ArticleStatus) : List ArticleRow :=
  match status with
  | some s =>
      sortByPublishedDesc
        (table.filter fun r =>
          textLe (pyIsoformat since) r.published && r.status == s.value)
  | none =>
      sortByPublishedDesc
        (table.filter fun r => textLe (pyIsoformat since) r.published)

/-! ### Claim C2 (idempotent ingestion) -/

/-- Once some row with URL `u` is present, saving any article with URL
`u` is ignored and changes nothing. -/
theorem saveAll_absorbed (articles : List Article) (table : List ArticleRow)
    (u : String) (hmem : ∃ r ∈ table, r.url = u)
    (hall : ∀ b ∈ articles, b.url = u) :
    saveAll table articles = (List.replicate articles.length false, table) := by
  induction articles with
  | nil => rfl
  | cons b rest ih =>
    obtain ⟨r, hr, hru⟩ := hmem
    have hb : b.url = u := hall b (List.mem_cons_self b rest)
    have hany : (table.any fun r => r.id == b.id || r.url == b.url) = true := by
      rw [List.any_eq_true]
      exact ⟨r, hr, by simp [hru, hb]⟩
    have hsave : Database.save_article table b = (false, table) := by
      unfold Database.save_article
      rw [if_pos hany]
    show (let s := Database.save_article table b
          let s' := saveAll s.2 rest
          (s.1 :: s'.1, s'.2)) = _
    rw [hsave]
    have ih' := ih fun c hc => hall c (List.mem_cons_of_mem b hc)
    simp only [ih', List.length_cons, List.replicate_succ]

/-- **C2**.  Starting from a table with no row for URL `u` (and none
with the first article's id), saving `N ≥ 1` articles with URL `u` in
sequence persists exactly the first one: the first call returns `true`,
every later call returns `false`, the final table is the original table
plus the single row of the first article (so later calls leave the
stored row unchanged), and exactly one row with URL `u` exists. -/
theorem c2_theorem (table₀ : List ArticleRow) (a : Article) (rest : List Article)
    (u : String) (hu : a.url = u) (hrest : ∀ b ∈ rest, b.url = u)
    (hfresh : ∀ r ∈ table₀, r.url ≠ u ∧ r.id ≠ a.id) :
    (saveAll table₀ (a :: rest)).1 = true :: List.replicate rest.length false ∧
    (saveAll table₀ (a :: rest)).2 = table₀ ++ [articleToRow a] ∧
    ((saveAll table₀ (a :: rest)).2.filter fun r => r.url == u).length = 1 := by
  have hany : (table₀.any fun r => r.id == a.id || r.url == a.url) = false := by
    rw [List.any_eq_false]
    intro r hr
    obtain ⟨hru, hri⟩ := hfresh r hr
    simp only [Bool.or_eq_true, beq_iff_eq, not_or]
    exact ⟨fun h => hri h, fun h => hru (h.trans hu)⟩
  have hsave : Database.save_article table₀ a = (true, table₀ ++ [articleToRow a]) := by
    unfold Database.save_article
    rw [if_neg (by simp [hany])]
  have habs : saveAll (table₀ ++ [articleToRow a]) rest =
      (List.replicate rest.length false, table₀ ++ [articleToRow a]) :=
    saveAll_absorbed rest _ u
      ⟨articleToRow a, by simp [articleToRow], by simpa [articleToRow] using hu⟩ hrest
  have hmain : saveAll table₀ (a :: rest) =
      (true :: List.replicate rest.length false, table₀ ++ [articleToRow a]) := by
    show (let s := Database.save_article table₀ a
          let s' := saveAll s.2 rest
          (s.1 :: s'.1, s'.2)) = _
    rw [hsave]
    simp only [habs]
  refine ⟨by rw [hmain], by rw [hmain], ?_⟩
  rw [hmain]
  simp only [List.filter_append]
  have h1 : table₀.filter (fun r => r.url == u) = [] := by
    rw [List.filter_eq_nil_iff]
    intro r hr
    simp [(hfresh r hr).1]
  have h2 : ([articleToRow a].filter fun r => r.url == u) = [articleToRow a] := by
    simp [articleToRow, hu]
  rw [h1, h2]
  rfl

/-- Witness for C2 at a concrete input: saving the same article three
times into an empty table. -/
theorem c2_witness :
    (({ id := "i1", url := "https://e.com/a", title := "t",
        feed_name := "f", feed_url := "https://e.com/feed",
        published := ⟨2025, 1, 1, 0, 0, 5, 0⟩ } : Article).url = "https://e.com/a" ∧
      (∀ b ∈ [({ id := "i1", url := "https://e.com/a", title := "t",
                 feed_name := "f", feed_url := "https://e.com/feed",
                 published := ⟨2025, 1, 1, 0, 0, 5, 0⟩ } : Article),
              { id := "i1", url := "https://e.com/a", title := "t",
                feed_name := "f", feed_url := "https://e.com/feed",
                published := ⟨2025, 1, 1, 0, 0, 5, 0⟩ }], b.url = "https://e.com/a") ∧
      (∀ r ∈ ([] : List ArticleRow), r.url ≠ "https://e.com/a" ∧ r.id ≠ "i1")) ∧
    ((saveAll []
        [({ id := "i1", url := "https://e.com/a", title := "t",
            feed_name := "f", feed_url := "https://e.com/feed",
            published := ⟨2025, 1, 1, 0, 0, 5, 0⟩ } : Article),
         { id := "i1", url := "https://e.com/a", title := "t",
           feed_name := "f", feed_url := "https://e.com/feed",
           published := ⟨2025, 1, 1, 0, 0, 5, 0⟩ },
         { id := "i1", url := "https://e.com/a", title := "t",
           feed_name := "f", feed_url := "https://e.com/feed",
           published := ⟨2025, 1, 1, 0, 0, 5, 0⟩ }]).1 = true :: List.replicate 2 false ∧
      (saveAll []
        [({ id := "i1", url := "https://e.com/a", title := "t",
            feed_name := "f", feed_url := "https://e.com/feed",
            published := ⟨2025, 1, 1, 0, 0, 5, 0⟩ } : Article),
         { id := "i1", url := "https://e.com/a", title := "t",
           feed_name := "f", feed_url := "https://e.com/feed",
           published := ⟨2025, 1, 1, 0, 0, 5, 0⟩ },
         { id := "i1", url := "https://e.com/a", title := "t",
           feed_name := "f", feed_url := "https://e.com/feed",
           published := ⟨2025, 1, 1, 0, 0, 5, 0⟩ }]).2 =
        [] ++ [articleToRow { id := "i1", url := "https://e.com/a", title := "t",
                              feed_name := "f", feed_url := "https://e.com/feed",
                              published := ⟨2025, 1, 1, 0, 0, 5, 0⟩ }] ∧
      ((saveAll []
        [({ id := "i1", url := "https://e.com/a", title := "t",
            feed_name := "f", feed_url := "https://e.com/feed",
            published := ⟨2025, 1, 1, 0, 0, 5, 0⟩ } : Article),
         { id := "i1", url := "https://e.com/a", title := "t",
           feed_name := "f", feed_url := "https://e.com/feed",
           published := ⟨2025, 1, 1, 0, 0, 5, 0⟩ },
         { id := "i1", url := "https://e.com/a", title := "t",
           feed_name := "f", feed_url := "https://e.com/feed",
           published := ⟨2025, 1, 1, 0, 0, 5, 0⟩ }]).2.filter fun r => r.url == "https://e.com/a").length = 1) :=
  ⟨⟨rfl, by decide, by decide⟩,
    c2_theorem [] _ _ "https://e.com/a" rfl (by decide) (by decide)⟩

/-! ### Claim C8 (query ordering)

The SQL `ORDER BY published DESC` sorts the stored TEXT; `textLtB`
order facts below give the sortedness of the modelled queries, and the
pad-rendering bridge relates the text order of uniformly-UTC-rendered
timestamps to their publish-time order. -/

/-- `textLtB` is irreflexive. -/
theorem textLtB_self (l : List Char) : textLtB l l = false := by
  induction l with
  | nil => rfl
  | cons c r ih => simp [textLtB, lt_irrefl, ih]

/-- `textLtB` is asymmetric. -/
theorem textLtB_asymm {l1 l2 : List Char} (h : textLtB l1 l2 = true) :
    textLtB l2 l1 = false := by
  induction l1 generalizing l2 with
  | nil =>
    cases l2 with
    | nil => simp [textLtB] at h
    | cons d r2 => rfl
  | cons c r1 ih =>
    cases l2 with
    | nil => simp [textLtB] at h
    | cons d r2 =>
      by_cases hcd : c < d
      · simp [textLtB, hcd, asymm hcd]
      · by_cases hdc : d < c
        · simp [textLtB, hcd, hdc] at h
        · have h' : textLtB r1 r2 = true := by
            simpa [textLtB, hcd, hdc] using h
          simp [textLtB, hcd, hdc, ih h']

/-- `textLtB` is connected through any middle list. -/
theorem textLtB_connect (b : List Char) :
    ∀ {l1 l2 : List Char}, textLtB l1 l2 = true →
      textLtB l1 b = true ∨ textLtB b l2 = true := by
  intro l1
  induction l1 generalizing b with
  | nil =>
    intro l2 h
    cases l2 with
    | nil => simp [textLtB] at h
    | cons d r2 =>
      cases b with
      | nil => exact Or.inr rfl
      | cons e rb => exact Or.inl rfl
  | cons c r1 ih =>
    intro l2 h
    cases l2 with
    | nil => simp [textLtB] at h
    | cons d r2 =>
      cases b with
      | nil => exact Or.inr rfl
      | cons e rb =>
        by_cases hce : c < e
        · exact Or.inl (by simp [textLtB, hce])
        · by_cases hec : e < c
          · refine Or.inr ?_
            by_cases hcd : c < d
            · simp [textLtB, lt_trans hec hcd]
            · by_cases hdc : d < c
              · simp [textLtB, hcd, hdc] at h
              · have hcdeq : c = d := le_antisymm (not_lt.mp hdc) (not_lt.mp hcd)
                subst hcdeq
                simp [textLtB, hec]
          · have hceq : c = e := le_antisymm (not_lt.mp hec) (not_lt.mp hce)
            subst hceq
            by_cases hcd : c < d
            · exact Or.inr (by simp [textLtB, hcd])
            · by_cases hdc : d < c
              · simp [textLtB, hcd, hdc] at h
              · have hcdeq : c = d := le_antisymm (not_lt.mp hdc) (not_lt.mp hcd)
                subst hcdeq
                have h' : textLtB r1 r2 = true := by
                  simpa [textLtB, lt_irrefl] using h
                rcases ih rb h' with h1 | h1
                · exact Or.inl (by simp [textLtB, lt_irrefl, h1])
                · exact Or.inr (by simp [textLtB, lt_irrefl, h1])

/-- `textLe` is transitive. -/
theorem textLe_trans {a b c : String} (h1 : textLe a b = true)
    (h2 : textLe b c = true) : textLe a c = true := by
  unfold textLe at h1 h2 ⊢
  rw [Bool.not_eq_true'] at h1 h2 ⊢
  by_contra hca
  rw [Bool.not_eq_false] at hca
  rcases textLtB_connect b.data hca with h | h
  · rw [h] at h2
    cases h2
  · rw [h] at h1
    cases h1

/-- `textLe` is total (from asymmetry of the strict comparison). -/
theorem textLe_of_not_textLe {a b : String} (h : ¬ textLe a b = true) :
    textLe b a = true := by
  unfold textLe at h ⊢
  rw [Bool.not_eq_true, Bool.not_eq_false'] at h
  rw [textLtB_asymm h]
  rfl

/-- Membership in a descending insertion. -/
theorem mem_insertPD {y r : ArticleRow} {l : List ArticleRow} :
    y ∈ insertPD r l ↔ y = r ∨ y ∈ l := by
  induction l with
  | nil => simp [insertPD]
  | cons x xs ih =>
    by_cases hc : textLe x.published r.published = true
    · rw [insertPD, if_pos hc]
      simp [List.mem_cons]
    · rw [insertPD, if_neg hc]
      simp only [List.mem_cons, ih]
      tauto

/-- Inserting into a text-descending-sorted list keeps it sorted. -/
theorem pairwise_insertPD (r : ArticleRow) (l : List ArticleRow)
    (h : l.Pairwise fun a b => textLe b.published a.published = true) :
    (insertPD r l).Pairwise fun a b => textLe b.published a.published = true := by
  induction l with
  | nil => simp [insertPD]
  | cons x xs ih =>
    rw [List.pairwise_cons] at h
    by_cases hc : textLe x.published r.published = true
    · rw [insertPD, if_pos hc]
      rw [List.pairwise_cons]
      refine ⟨?_, List.pairwise_cons.mpr h⟩
      intro y hy
      rcases List.mem_cons.mp hy with rfl | hy'
      · exact hc
      · exact textLe_trans (h.1 y hy') hc
    · rw [insertPD, if_neg hc]
      rw [List.pairwise_cons]
      refine ⟨?_, ih h.2⟩
      intro y hy
      rcases mem_insertPD.mp hy with rfl | hy'
      · exact textLe_of_not_textLe hc
      · exact h.1 y hy'

/-- The modelled `ORDER BY published DESC` output is text-descending. -/
theorem pairwise_sortByPublishedDesc (l : List ArticleRow) :
    (sortByPublishedDesc l).Pairwise
      fun a b => textLe b.published a.published = true := by
  induction l with
  | nil => simp [sortByPublishedDesc]
  | cons x xs ih => exact pairwise_insertPD x _ ih

/-- Equal heads cancel in `textLtB`. -/
theorem textLtB_cons_self (c : Char) (l1 l2 : List Char) :
    textLtB (c :: l1) (c :: l2) = textLtB l1 l2 := by
  simp [textLtB, lt_irrefl]

/-- Digit characters compare like their digits. -/
theorem digitCh_lt_iff {a b : Nat} (ha : a < 10) (hb : b < 10) :
    digitCh a < digitCh b ↔ a < b := by
  interval_cases a <;> interval_cases b <;> decide

/-- One `textLtB` comparison step on cons cells. -/
theorem textLtB_cons (c d : Char) (l1 l2 : List Char) :
    textLtB (c :: l1) (d :: l2) =
      if c < d then true else if d < c then false else textLtB l1 l2 := rfl

/-- Two-digit zero-padded fields compare like their values, then the
remainders. -/
theorem pad2_lt_iff {a b : Nat} (ha : a < 100) (hb : b < 100)
    (r1 r2 : List Char) :
    textLtB (pad2 a ++ r1) (pad2 b ++ r2) = true ↔
      a < b ∨ (a = b ∧ textLtB r1 r2 = true) := by
  unfold pad2
  simp only [List.cons_append, List.nil_append]
  have h10a : a / 10 < 10 := by omega
  have h10b : b / 10 < 10 := by omega
  have h1a : a % 10 < 10 := by omega
  have h1b : b % 10 < 10 := by omega
  rw [textLtB_cons]
  by_cases h1 : a / 10 < b / 10
  · rw [if_pos ((digitCh_lt_iff h10a h10b).mpr h1)]
    constructor
    · intro _
      exact Or.inl (by omega)
    · intro _
      rfl
  · have hne1 : ¬ digitCh (a / 10) < digitCh (b / 10) := by
      rw [digitCh_lt_iff h10a h10b]
      omega
    rw [if_neg hne1]
    by_cases h2 : b / 10 < a / 10
    · rw [if_pos ((digitCh_lt_iff h10b h10a).mpr h2)]
      constructor
      · intro hfalse
        cases hfalse
      · rintro (h | ⟨rfl, _⟩) <;> omega
    · have hne2 : ¬ digitCh (b / 10) < digitCh (a / 10) := by
        rw [digitCh_lt_iff h10b h10a]
        omega
      rw [if_neg hne2, textLtB_cons]
      by_cases h3 : a % 10 < b % 10
      · rw [if_pos ((digitCh_lt_iff h1a h1b).mpr h3)]
        constructor
        · intro _
          exact Or.inl (by omega)
        · intro _
          rfl
      · have hne3 : ¬ digitCh (a % 10) < digitCh (b % 10) := by
          rw [digitCh_lt_iff h1a h1b]
          omega
        rw [if_neg hne3]
        by_cases h4 : b % 10 < a % 10
        · rw [if_pos ((digitCh_lt_iff h1b h1a).mpr h4)]
          constructor
          · intro hfalse
            cases hfalse
          · rintro (h | ⟨rfl, _⟩) <;> omega
        · have hne4 : ¬ digitCh (b % 10) < digitCh (a % 10) := by
            rw [digitCh_lt_iff h1b h1a]
            omega
          rw [if_neg hne4]
          have hab : a = b := by omega
          subst hab
          simp [lt_irrefl]

/-- Four-digit zero-padded fields compare like their values, then the
remainders. -/
theorem pad4_lt_iff {a b : Nat} (ha : a < 10000) (hb : b < 10000)
    (r1 r2 : List Char) :
    textLtB (pad4 a ++ r1) (pad4 b ++ r2) = true ↔
      a < b ∨ (a = b ∧ textLtB r1 r2 = true) := by
  unfold pad4
  rw [List.append_assoc, List.append_assoc,
    pad2_lt_iff (by omega) (by omega), pad2_lt_iff (by omega) (by omega)]
  constructor
  · rintro (h | ⟨he, (h | ⟨he2, ht⟩)⟩)
    · exact Or.inl (by omega)
    · exact Or.inl (by omega)
    · exact Or.inr ⟨by omega, ht⟩
  · rintro (h | ⟨rfl, ht⟩)
    · by_cases h2 : a / 100 < b / 100
      · exact Or.inl h2
      · exact Or.inr ⟨by omega, Or.inl (by omega)⟩
    · exact Or.inr ⟨rfl, Or.inr ⟨rfl, ht⟩⟩

/-- For well-formed UTC-rendered timestamps, the stored-TEXT strict
order is exactly the publish-time (local civil key) order. -/
theorem pyIsoformat_textLt_iff {dt1 dt2 : PyDatetime}
    (h1 : PadOK dt1) (h2 : PadOK dt2)
    (ho1 : dt1.offset = 0) (ho2 : dt2.offset = 0) :
    textLtB (pyIsoformat dt1).data (pyIsoformat dt2).data = true ↔
      naiveKey dt1 < naiveKey dt2 := by
  obtain ⟨hy1, hmo1, hd1, hh1, hmi1, hs1⟩ := h1
  obtain ⟨hy2, hmo2, hd2, hh2, hmi2, hs2⟩ := h2
  show textLtB
      (pad4 dt1.year ++ '-' :: (pad2 dt1.month ++ '-' :: (pad2 dt1.day ++
        'T' :: (pad2 dt1.hour ++ ':' :: (pad2 dt1.minute ++ ':' ::
          (pad2 dt1.second ++ offsetChars dt1.offset))))))
      (pad4 dt2.year ++ '-' :: (pad2 dt2.month ++ '-' :: (pad2 dt2.day ++
        'T' :: (pad2 dt2.hour ++ ':' :: (pad2 dt2.minute ++ ':' ::
          (pad2 dt2.second ++ offsetChars dt2.offset)))))) = true ↔
      naiveKey dt1 < naiveKey dt2
  rw [ho1, ho2, pad4_lt_iff hy1 hy2, textLtB_cons_self,
    pad2_lt_iff hmo1 hmo2, textLtB_cons_self, pad2_lt_iff hd1 hd2,
    textLtB_cons_self, pad2_lt_iff hh1 hh2, textLtB_cons_self,
    pad2_lt_iff hmi1 hmi2, textLtB_cons_self, pad2_lt_iff hs1 hs2,
    textLtB_self]
  unfold naiveKey
  simp only [Bool.false_eq_true, and_false, or_false]
  omega

/-- For well-formed UTC-rendered timestamps, the stored-TEXT `<=` is
exactly the publish-time (local civil key) `<=`. -/
theorem pyIsoformat_textLe_iff {dt1 dt2 : PyDatetime}
    (h1 : PadOK dt1) (h2 : PadOK dt2)
    (ho1 : dt1.offset = 0) (ho2 : dt2.offset = 0) :
    textLe (pyIsoformat dt1) (pyIsoformat dt2) = true ↔
      naiveKey dt1 ≤ naiveKey dt2 := by
  unfold textLe
  rw [Bool.not_eq_true']
  constructor
  · intro h
    by_contra hlt
    push_neg at hlt
    rw [(pyIsoformat_textLt_iff h2 h1 ho2 ho1).mpr hlt] at h
    cases h
  · intro hle
    by_contra hne
    rw [Bool.not_eq_false] at hne
    have := (pyIsoformat_textLt_iff h2 h1 ho2 ho1).mp hne
    omega

/-- **C8** (counterexample).  The claim "`getPending`/`getSince` return
rows ordered by publish time, most recent first" is false as stated:
the queries order by the stored `published` TEXT, and
`_parse_entry_date` preserves non-UTC offsets (dateutil), so mixed
offsets are reachable.  Below, the row published at
`2025-03-01T23:00:00-05:00` denotes the instant 2025-03-02 04:00 UTC
while the row published at `2025-03-02T01:00:00+00:00` denotes the
EARLIER instant 2025-03-02 01:00 UTC — yet both queries list the
earlier-instant row first, because its text sorts higher. -/
theorem c8_counterexample :
    pyIsoformat ⟨2025, 3, 2, 1, 0, 0, 0⟩ = "2025-03-02T01:00:00+00:00" ∧
    pyIsoformat ⟨2025, 3, 1, 23, 0, 0, -18000⟩ = "2025-03-01T23:00:00-05:00" ∧
    PyDatetime.toInstant ⟨2025, 3, 2, 1, 0, 0, 0⟩ <
      PyDatetime.toInstant ⟨2025, 3, 1, 23, 0, 0, -18000⟩ ∧
    Database.get_pending_articles
      [⟨"idE", "uE", "tE", "a", "f", "fu", "2025-03-01T23:00:00-05:00", "",
        0, "Tech", "pending", none, [], []⟩,
       ⟨"idU", "uU", "tU", "a", "f", "fu", "2025-03-02T01:00:00+00:00", "",
        0, "Tech", "pending", none, [], []⟩] 10 =
      [⟨"idU", "uU", "tU", "a", "f", "fu", "2025-03-02T01:00:00+00:00", "",
        0, "Tech", "pending", none, [], []⟩,
       ⟨"idE", "uE", "tE", "a", "f", "fu", "2025-03-01T23:00:00-05:00", "",
        0, "Tech", "pending", none, [], []⟩] ∧
    Database.get_articles_since
      [⟨"idE", "uE", "tE", "a", "f", "fu", "2025-03-01T23:00:00-05:00", "",
        0, "Tech", "pending", none, [], []⟩,
       ⟨"idU", "uU", "tU", "a", "f", "fu", "2025-03-02T01:00:00+00:00", "",
        0, "Tech", "pending", none, [], []⟩] ⟨2025, 3, 1, 0, 0, 0, 0⟩ none =
      [⟨"idU", "uU", "tU", "a", "f", "fu", "2025-03-02T01:00:00+00:00", "",
        0, "Tech", "pending", none, [], []⟩,
       ⟨"idE", "uE", "tE", "a", "f", "fu", "2025-03-01T23:00:00-05:00", "",
        0, "Tech", "pending", none, [], []⟩] := by
  decide

/-- **C8** (amended).  `get_pending_articles` and `get_articles_since`
return rows ordered by the stored `published` TEXT, most recent first
in SQLite's BINARY text order (every adjacent pair satisfies
`textLe later earlier`); and whenever two adjacent rows both carry
well-formed UTC-rendered timestamps (offset `+00:00`, as the
struct_time date path and `run_analysis` produce), the later-listed
row's publish time is at most the earlier-listed one's.  With mixed
stored offsets the text order can disagree with publish-time order —
see the counterexample. -/
theorem c8_theorem (table : List ArticleRow) (limit : Nat)
    (since : PyDatetime) (status : Option ArticleStatus) :
    (List.Chain' (fun a b => textLe b.published a.published = true)
      (Database.get_pending_articles table limit) ∧
     List.Chain' (fun a b => textLe b.published a.published = true)
      (Database.get_articles_since table since status)) ∧
    (List.Chain' (fun a b => ∀ dta dtb : PyDatetime, PadOK dta → PadOK dtb →
        dta.offset = 0 → dtb.offset = 0 →
        a.published = pyIsoformat dta → b.published = pyIsoformat dtb →
        naiveKey dtb ≤ naiveKey dta)
      (Database.get_pending_articles table limit) ∧
     List.Chain' (fun a b => ∀ dta dtb : PyDatetime, PadOK dta → PadOK dtb →
        dta.offset = 0 → dtb.offset = 0 →
        a.published = pyIsoformat dta → b.published = pyIsoformat dtb →
        naiveKey dtb ≤ naiveKey dta)
      (Database.get_articles_since table since status)) := by
  have hpend : List.Chain' (fun a b => textLe b.published a.published = true)
      (Database.get_pending_articles table limit) :=
    List.Pairwise.chain'
      ((pairwise_sortByPublishedDesc _).sublist (List.take_sublist _ _))
  have hsince : List.Chain' (fun a b => textLe b.published a.published = true)
      (Database.get_articles_since table since status) := by
    unfold Database.get_articles_since
    cases status with
    | some s => exact List.Pairwise.chain' (pairwise_sortByPublishedDesc _)
    | none => exact List.Pairwise.chain' (pairwise_sortByPublishedDesc _)
  have himp : ∀ a b : ArticleRow, textLe b.published a.published = true →
      ∀ dta dtb : PyDatetime, PadOK dta → PadOK dtb →
        dta.offset = 0 → dtb.offset = 0 →
        a.published = pyIsoformat dta → b.published = pyIsoformat dtb →
        naiveKey dtb ≤ naiveKey dta := by
    intro a b htext dta dtb hpa hpb hoa hob hea heb
    rw [hea, heb] at htext
    exact (pyIsoformat_textLe_iff hpb hpa hob hoa).mp htext
  exact ⟨⟨hpend, hsince⟩, hpend.imp himp, hsince.imp himp⟩

/-! ### Summarizer batch (`src/analyze/summarizer.py`) -/

/-- `SummaryResult` (`src/analyze/summarizer.py`): the TypedDict
returned per article. -/
structure SummaryResult where
  success : Bool
  article_id : String
  summary : Option String
  key_takeaways : List String
  action_items : List String
  tokens_used : Nat
  error : Option String
  deriving Repr, DecidableEq

/-- One iteration of the `as_completed` loop of
`Summarizer.summarize_batch`: future `i` completes, and its result is
written at index `i` of the result list (`results[i] = result`).
`f` is the per-article task (`self.summarize_article`, which catches
every exception internally and returns a result value). -/
def writeResult (f : Article → SummaryResult) (articles : List Article)
    (results : List (Option SummaryResult)) (i : Nat) :
    List (Option SummaryResult) :=
  match articles[i]? with
  | some a => results.set i (some (f a))
  | none => results

/-- `Summarizer.summarize_batch`: `results = [None] * len(articles)`,
then each submitted future is consumed in completion order (`order`,
a permutation of the indices) and written back at its original index. -/
def Summarizer.summarize_batch (f : Article → SummaryResult)
    (articles : List Article) (order : List Nat) :
    List (Option SummaryResult) :=
  order.foldl (writeResult f articles) (List.replicate articles.length none)

/-- `writeResult` never changes the result list's length. -/
theorem length_writeResult (f : Article → SummaryResult) (articles : List Article)
    (results : List (Option SummaryResult)) (i : Nat) :
    (writeResult f articles results i).length = results.length := by
  unfold writeResult
  cases articles[i]? <;> simp

/-- Each index of the completion-order fold holds the result computed
from the article at that index, once the index has completed; untouched
indices keep their initial value. -/
theorem foldl_writeResult_getElem? (f : Article → SummaryResult)
    (articles : List Article) (order : List Nat)
    (res : List (Option SummaryResult)) (hres : res.length = articles.length)
    (i : Nat) :
    (order.foldl (writeResult f articles) res)[i]? =
      if i ∈ order then (articles[i]?).map (fun a => some (f a)) else res[i]? := by
  induction order generalizing res with
  | nil => simp
  | cons j rest ih =>
    rw [List.foldl_cons,
      ih _ ((length_writeResult f articles res j).trans hres)]
    by_cases hir : i ∈ rest
    · simp [hir, List.mem_cons]
    · simp only [hir, if_false]
      by_cases hij : i = j
      · subst hij
        simp only [List.mem_cons, true_or, if_true]
        unfold writeResult
        cases ha : articles[i]? with
        | none =>
          have hlen : articles.length ≤ i := by
            by_contra hlt
            push_neg at hlt
            exact absurd ha (by simp [List.getElem?_eq_getElem hlt])
          simp only [Option.map_none']
          exact List.getElem?_eq_none (hres ▸ hlen)
        | some a =>
          have hi : i < res.length := by
            rw [hres]
            exact (List.getElem?_eq_some_iff.mp ha).1
          simp only [Option.map_some']
          exact List.getElem?_set_self hi
      · have : ¬(i = j ∨ i ∈ rest) := by tauto
        simp only [List.mem_cons, this, if_false]
        unfold writeResult
        cases articles[j]? with
        | none => rfl
        | some a => exact List.getElem?_set_ne (fun h => hij h.symm)

/-- The batch output equals the in-order per-article results whenever
the completion order is a permutation of the indices (shared between
the C7 and C1 theorems). -/
theorem summarize_batch_eq_map (f : Article → SummaryResult)
    (articles : List Article) (order : List Nat)
    (hperm : order.Perm (List.range articles.length)) :
    Summarizer.summarize_batch f articles order =
      articles.map fun a => some (f a) := by
  apply List.ext_getElem?
  intro i
  unfold Summarizer.summarize_batch
  rw [foldl_writeResult_getElem? f articles order _ (List.length_replicate _ _) i]
  have hmem : i ∈ order ↔ i < articles.length := by
    rw [hperm.mem_iff, List.mem_range]
  by_cases hi : i < articles.length
  · rw [if_pos (hmem.mpr hi), List.getElem?_map]
  · rw [if_neg (fun h => hi (hmem.mp h)), List.getElem?_map,
      List.getElem?_eq_none (by omega : articles.length ≤ i),
      List.getElem?_eq_none (by simp; omega : (List.replicate articles.length
        (none : Option SummaryResult)).length ≤ i)]
    rfl

/-- **C7**.  For every per-article task result function, every article
list and every completion order (any permutation of the indices),
`summarize_batch` returns a list of exactly the input's length whose
entry at index `i` is the summarization result of the article at index
`i`. -/
theorem c7_theorem (f : Article → SummaryResult) (articles : List Article)
    (order : List Nat) (hperm : order.Perm (List.range articles.length)) :
    Summarizer.summarize_batch f articles order =
      articles.map fun a => some (f a) :=
  summarize_batch_eq_map f articles order hperm

/-- Witness for C7 at a concrete input: two articles completing in
reversed order. -/
theorem c7_witness :
    ([1, 0] : List Nat).Perm (List.range
      ([({ id := "i1", url := "u1", title := "t1", feed_name := "f",
           feed_url := "fu", published := ⟨2025, 1, 1, 0, 0, 1, 0⟩ } : Article),
        { id := "i2", url := "u2", title := "t2", feed_name := "f",
          feed_url := "fu", published := ⟨2025, 1, 1, 0, 0, 2, 0⟩ }].length)) ∧
    Summarizer.summarize_batch
        (fun a => { success := true, article_id := a.id, summary := some a.title,
                    key_takeaways := [], action_items := [], tokens_used := 3,
                    error := none })
        [({ id := "i1", url := "u1", title := "t1", feed_name := "f",
            feed_url := "fu", published := ⟨2025, 1, 1, 0, 0, 1, 0⟩ } : Article),
         { id := "i2", url := "u2", title := "t2", feed_name := "f",
           feed_url := "fu", published := ⟨2025, 1, 1, 0, 0, 2, 0⟩ }] [1, 0] =
      [({ id := "i1", url := "u1", title := "t1", feed_name := "f",
          feed_url := "fu", published := ⟨2025, 1, 1, 0, 0, 1, 0⟩ } : Article),
       { id := "i2", url := "u2", title := "t2", feed_name := "f",
         feed_url := "fu", published := ⟨2025, 1, 1, 0, 0, 2, 0⟩ }].map
        (fun a => some { success := true, article_id := a.id,
                         summary := some a.title, key_takeaways := [],
                         action_items := [], tokens_used := 3, error := none }) :=
  ⟨by decide, c7_theorem _ _ [1, 0] (by decide)⟩

/-! ### Claim C1 (cache-check precedes the LLM call) -/

/-- `LLMResponse` (`src/llm/base.py`), restricted to the fields the
summarizer consumes: the parsed structured result and the token
counts. -/
structure LLMResponse where
  summary : Option String
  key_takeaways : List String
  action_items : List String
  input_tokens : Nat
  output_tokens : Nat
  deriving Repr, DecidableEq

/-- Modelled from the spec: the cache-enabled
`Summarizer.summarize_article(article, cache=..., model_name=...)` is
missing from the source tree — `src/analyze/summarizer.py` holds a
stale `Summarizer` without the `client`, `cache` and `model_name`
parameters, while its caller `run_analysis`
(`src/analyze/__init__.py`) and its tests
(`tests/test_analyze.py`, `TestSummarizerCache`) use them.  Modelled
from the spec's words: "Cache-check precedes any LLM call when a cache
is supplied: on hit, returns the cached result verbatim without
invoking the LLM (zero tokens consumed)"; on miss (or no cache) the
client's `generate` is called and, on success, the result is persisted
to the cache before returning; on a client exception a failure result
carrying the error text is returned, never raised.  Cache entries live
under kind `"summary"` and key `make_cache_key(article.id,
model_name)` (as exercised by the tests).  A hit returns the cached
blob with `tokens_used` reported as 0 — the zero consumption the spec
and claim ascribe to a hit.  `llm` is the outcome `client.generate`
would produce if invoked; the last component of the result counts the
client invocations performed. -/
def summarize_article_cached (llm : Except String LLMResponse)
    (cache : Option (List (CacheRow SummaryResult))) (default_ttl now : Int)
    (article : Article) (model_name : String) :
    SummaryResult × Option (List (CacheRow SummaryResult)) × Nat :=
  let onMiss : Except String LLMResponse → SummaryResult := fun r =>
    match r with
    | .ok resp =>
        { success := true, article_id := article.id, summary := resp.summary,
          key_takeaways := resp.key_takeaways,
          action_items := resp.action_items,
          tokens_used := resp.input_tokens + resp.output_tokens, error := none }
    | .error e =>
        { success := false, article_id := article.id, summary := none,
          key_takeaways := [], action_items := [], tokens_used := 0,
          error := some e }
  match cache with
  | some table =>
      let key := make_cache_key article.id model_name
      match CacheStore.get table "summary" key now with
      | some cached => ({ cached with tokens_used := 0 }, some table, 0)
      | none =>
          let res := onMiss llm
          if res.success then
            (res, some (CacheStore.set table "summary" key res none default_ttl now), 1)
          else
            (res, some table, 1)
  | none => (onMiss llm, none, 1)

/-- **C1**.  When a cache is supplied and it holds an unexpired entry
for `(article.id, model_name)`, the summarize operation returns that
cached result reporting zero tokens, performs zero LLM-client
invocations (the result is the same for every possible client
behaviour `llm`), leaves the cache unchanged — and the batch operation
run over any article list containing this article yields exactly that
result at the article's index, for every completion order. -/
theorem c1_theorem (llm : Except String LLMResponse)
    (table : List (CacheRow SummaryResult)) (default_ttl now : Int)
    (article : Article) (model_name : String) (cached : SummaryResult)
    (hhit : CacheStore.get table "summary"
      (make_cache_key article.id model_name) now = some cached)
    (pre post : List Article) (order : List Nat)
    (hperm : order.Perm (List.range (pre ++ article :: post).length)) :
    summarize_article_cached llm (some table) default_ttl now article model_name =
      ({ cached with tokens_used := 0 }, some table, 0) ∧
    (Summarizer.summarize_batch
        (fun a =>
          (summarize_article_cached llm (some table) default_ttl now a
            model_name).1)
        (pre ++ article :: post) order)[pre.length]? =
      some (some { cached with tokens_used := 0 }) := by
  have h1 : summarize_article_cached llm (some table) default_ttl now article
      model_name = ({ cached with tokens_used := 0 }, some table, 0) := by
    simp only [summarize_article_cached, hhit]
  refine ⟨h1, ?_⟩
  rw [summarize_batch_eq_map _ _ order hperm, List.getElem?_map]
  have hidx : (pre ++ article :: post)[pre.length]? = some article := by
    rw [List.getElem?_append_right (le_refl _)]
    simp
  rw [hidx, Option.map_some', h1]

/-- Witness for C1 at a concrete input: a one-row cache holding the
entry for the article/model pair, an article list with one article
before and one after, and the identity completion order. -/
theorem c1_witness :
    CacheStore.get
        [(⟨"summary", make_cache_key "i2" "gemini-test",
           { success := true, article_id := "i2", summary := some "cached summary",
             key_takeaways := ["cached insight"], action_items := [],
             tokens_used := 100, error := none }, 0, 1000⟩ :
          CacheRow SummaryResult)] "summary"
        (make_cache_key "i2" "gemini-test") 50 =
      some { success := true, article_id := "i2", summary := some "cached summary",
             key_takeaways := ["cached insight"], action_items := [],
             tokens_used := 100, error := none } ∧
    ([0, 1, 2] : List Nat).Perm (List.range
      ([({ id := "i1", url := "u1", title := "t1", feed_name := "f",
           feed_url := "fu", published := ⟨2025, 1, 1, 0, 0, 1, 0⟩ } : Article)] ++
        { id := "i2", url := "u2", title := "t2", feed_name := "f",
          feed_url := "fu", published := ⟨2025, 1, 1, 0, 0, 2, 0⟩ } ::
        [({ id := "i3", url := "u3", title := "t3", feed_name := "f",
            feed_url := "fu", published := ⟨2025, 1, 1, 0, 0, 3, 0⟩ } : Article)]).length) ∧
    (summarize_article_cached (.error "boom")
        (some [(⟨"summary", make_cache_key "i2" "gemini-test",
           { success := true, article_id := "i2", summary := some "cached summary",
             key_takeaways := ["cached insight"], action_items := [],
             tokens_used := 100, error := none }, 0, 1000⟩ :
          CacheRow SummaryResult)]) 7 50
        { id := "i2", url := "u2", title := "t2", feed_name := "f",
          feed_url := "fu", published := ⟨2025, 1, 1, 0, 0, 2, 0⟩ } "gemini-test" =
      ({ success := true, article_id := "i2", summary := some "cached summary",
         key_takeaways := ["cached insight"], action_items := [],
         tokens_used := 0, error := none },
       some [(⟨"summary", make_cache_key "i2" "gemini-test",
           { success := true, article_id := "i2", summary := some "cached summary",
             key_takeaways := ["cached insight"], action_items := [],
             tokens_used := 100, error := none }, 0, 1000⟩ :
          CacheRow SummaryResult)], 0) ∧
      (Summarizer.summarize_batch
          (fun a =>
            (summarize_article_cached (.error "boom")
              (some [(⟨"summary", make_cache_key "i2" "gemini-test",
                 { success := true, article_id := "i2",
                   summary := some "cached summary",
                   key_takeaways := ["cached insight"], action_items := [],
                   tokens_used := 100, error := none }, 0, 1000⟩ :
                CacheRow SummaryResult)]) 7 50 a "gemini-test").1)
          ([({ id := "i1", url := "u1", title := "t1", feed_name := "f",
               feed_url := "fu", published := ⟨2025, 1, 1, 0, 0, 1, 0⟩ } : Article)] ++
            { id := "i2", url := "u2", title := "t2", feed_name := "f",
              feed_url := "fu", published := ⟨2025, 1, 1, 0, 0, 2, 0⟩ } ::
            [({ id := "i3", url := "u3", title := "t3", feed_name := "f",
                feed_url := "fu", published := ⟨2025, 1, 1, 0, 0, 3, 0⟩ } : Article)]) [0, 1, 2])[
        ([({ id := "i1", url := "u1", title := "t1", feed_name := "f",
             feed_url := "fu", published := ⟨2025, 1, 1, 0, 0, 1, 0⟩ } : Article)]).length]? =
        some (some { success := true, article_id := "i2",
                     summary := some "cached summary",
                     key_takeaways := ["cached insight"], action_items := [],
                     tokens_used := 0, error := none })) := by
  refine ⟨?_, by decide, ?_⟩
  · simp [CacheStore.get, List.find?]
  · exact c1_theorem (.error "boom") _ 7 50 _ "gemini-test"
      { success := true, article_id := "i2", summary := some "cached summary",
        key_takeaways := ["cached insight"], action_items := [],
        tokens_used := 100, error := none }
      (by simp [CacheStore.get, List.find?]) _ _ [0, 1, 2] (by decide)

/-! ### Claim C9 (digest builder synthesis fallback,
`src/analyze/digest_builder.py`) -/

/-- `CategorySynthesisResponse`: the structured category synthesis the
LLM returns. -/
structure CategorySynthesisResponse where
  synthesis : String
  top_takeaways : List String
  must_read : List String
  deriving Repr, DecidableEq

/-- `CategoryDigest` (`src/models.py`). -/
structure CategoryDigest where
  name : String
  article_count : Nat
  articles : List Article
  synthesis : String
  top_takeaways : List String
  deriving Repr, DecidableEq

/-- `DigestBuilder._build_category_digest`.  `llm` is the outcome of the
`generate_content` synthesis call (only made when the category has more
than one article); the `except Exception` branch of the source builds
the deterministic fallback.  For a single article, Python evaluates
`article.summary or f"One article from {article.feed_name}."`, where
`or` also replaces an empty-string summary.  On an empty list the
source would raise `IndexError` (`articles[0]`) — modelled as `none`;
`build_digest` only calls this with non-empty category groups. -/
def DigestBuilder._build_category_digest
    (llm : Except String CategorySynthesisResponse)
    (category_name : String) (articles : List Article) :
    Option CategoryDigest :=
  if 1 < articles.length then
    match llm with
    | .ok parsed =>
        some { name := category_name, article_count := articles.length,
               articles := articles, synthesis := parsed.synthesis,
               top_takeaways := parsed.top_takeaways }
    | .error _ =>
        some { name := category_name, article_count := articles.length,
               articles := articles,
               synthesis := "Today\x27s " ++ category_name ++
                 " coverage includes " ++ toString articles.length ++
                 " articles.",
               top_takeaways :=
                 (articles.take 3).filterMap fun a => a.key_takeaways.head? }
  else
    match articles with
    | [] => none
    | a :: _ =>
        some { name := category_name, article_count := articles.length,
               articles := articles,
               synthesis :=
                 match a.summary with
                 | some s =>
                     if s = "" then "One article from " ++ a.feed_name ++ "."
                     else s
                 | none => "One article from " ++ a.feed_name ++ ".",
               top_takeaways := a.key_takeaways.take 3 }

/-- Collecting the first takeaway of each article that has one equals
mapping the head over the articles with non-empty takeaways. -/
theorem filterMap_head_eq_map_filter (l : List Article) :
    (l.filterMap fun a => a.key_takeaways.head?) =
      (l.filter fun a => !a.key_takeaways.isEmpty).map
        fun a => a.key_takeaways.headI := by
  induction l with
  | nil => rfl
  | cons x xs ih =>
    cases hx : x.key_takeaways with
    | nil =>
      rw [List.filterMap_cons, List.filter_cons]
      simp [hx, ih]
    | cons t ts =>
      rw [List.filterMap_cons, List.filter_cons]
      simp [hx, ih, List.headI]

/-- **C9**.  For every category with more than one article whose LLM
synthesis call raises, `_build_category_digest` still returns a
`CategoryDigest` (no propagation) whose synthesis string is non-empty
and whose `top_takeaways` has at most 3 entries, each the first
takeaway of a distinct input article with non-empty takeaways. -/
theorem c9_theorem (e : String) (category_name : String)
    (articles : List Article) (h : 1 < articles.length) :
    ∃ d : CategoryDigest,
      DigestBuilder._build_category_digest (.error e) category_name articles =
        some d ∧
      d.synthesis ≠ "" ∧
      d.top_takeaways.length ≤ 3 ∧
      ∃ src : List Article, src.Sublist articles ∧
        (∀ a ∈ src, a.key_takeaways ≠ []) ∧
        d.top_takeaways = src.map fun a => a.key_takeaways.headI := by
  refine ⟨_, by rw [DigestBuilder._build_category_digest.eq_def, if_pos h], ?_, ?_, ?_⟩
  · intro heq
    have hlen := congrArg String.length heq
    rw [String.length_append, String.length_append, String.length_append,
      String.length_append] at hlen
    have h1 : ("Today\x27s " : String).length = 8 := rfl
    have h2 : (" coverage includes " : String).length = 19 := rfl
    have h3 : (" articles." : String).length = 10 := rfl
    have h4 : ("" : String).length = 0 := rfl
    rw [h1, h2, h3, h4] at hlen
    omega
  · calc ((articles.take 3).filterMap fun a => a.key_takeaways.head?).length
        ≤ (articles.take 3).length := List.length_filterMap_le _ _
      _ ≤ 3 := by rw [List.length_take]; omega
  · refine ⟨(articles.take 3).filter fun a => !a.key_takeaways.isEmpty,
      (List.filter_sublist _).trans (List.take_sublist 3 articles), ?_, ?_⟩
    · intro a ha
      have := (List.mem_filter.mp ha).2
      simpa using this
    · exact filterMap_head_eq_map_filter (articles.take 3)

/-- Witness for C9 at a concrete input: a two-article category whose
synthesis call raises; the first article has a takeaway, the second
does not. -/
theorem c9_witness :
    1 < ([({ id := "i1", url := "u1", title := "t1", feed_name := "f",
             feed_url := "fu", published := ⟨2025, 1, 1, 0, 0, 1, 0⟩,
             key_takeaways := ["k1", "k2"] } : Article),
          { id := "i2", url := "u2", title := "t2", feed_name := "f",
            feed_url := "fu", published := ⟨2025, 1, 1, 0, 0, 2, 0⟩ }] : List Article).length ∧
    ∃ d : CategoryDigest,
      DigestBuilder._build_category_digest (.error "boom") "Tech"
          [({ id := "i1", url := "u1", title := "t1", feed_name := "f",
              feed_url := "fu", published := ⟨2025, 1, 1, 0, 0, 1, 0⟩,
              key_takeaways := ["k1", "k2"] } : Article),
           { id := "i2", url := "u2", title := "t2", feed_name := "f",
             feed_url := "fu", published := ⟨2025, 1, 1, 0, 0, 2, 0⟩ }] = some d ∧
      d.synthesis ≠ "" ∧
      d.top_takeaways.length ≤ 3 ∧
      ∃ src : List Article,
        src.Sublist
          [({ id := "i1", url := "u1", title := "t1", feed_name := "f",
              feed_url := "fu", published := ⟨2025, 1, 1, 0, 0, 1, 0⟩,
              key_takeaways := ["k1", "k2"] } : Article),
           { id := "i2", url := "u2", title := "t2", feed_name := "f",
             feed_url := "fu", published := ⟨2025, 1, 1, 0, 0, 2, 0⟩ }] ∧
        (∀ a ∈ src, a.key_takeaways ≠ []) ∧
        d.top_takeaways = src.map fun a => a.key_takeaways.headI :=
  ⟨by decide, c9_theorem "boom" "Tech" _ (by decide)⟩

/-! ### Feed fetching (`src/ingest/feeds.py`)

The HTTP layer (`httpx.get` via `_fetch_response`) is an external
collaborator: `resp1` is the response the host gives the attempt with
`FEED_AGENT_HEADERS`, `resp2` the one it gives the attempt with
`BROWSER_HEADERS` (consulted only if that attempt happens).
`feedparser.parse` of the final body is the external parse result
`doc`.  `_parse_entry_date` and `_extract_author` wrap external
feedparser/dateutil data; their outcomes are carried on the entry
(`resolvedDate` is `None` exactly when `_parse_entry_date` returns
`None`).  The timeout/connection-error paths and `response_time_ms`
(wall-clock) are outside the model; no claim concerns them. -/

/-- The status codes that trigger the browser-header retry. -/
def BOT_FILTER_RETRY_STATUS_CODES : List Nat := [403, 404]

/-- An `httpx` response, restricted to the consumed fields. -/
structure HttpResponse where
  status_code : Nat
  url : String
  content_type : Option String
  deriving Repr, DecidableEq

/-- One feed entry after external field extraction. -/
structure FeedEntry where
  link : String
  title : Option String
  author : String
  resolvedDate : Option PyDatetime
  deriving Repr, DecidableEq

/-- The `feedparser.parse` result, restricted to the consumed fields.
`bozo_exception = none` models no exception object; `some ""` models an
exception whose `str` is empty (Python-falsy). -/
structure ParsedFeed where
  title : Option String
  bozo : Bool
  bozo_exception : Option String
  entries : List FeedEntry
  deriving Repr, DecidableEq

/-- `FeedResult` (`src/ingest/feeds.py`), minus `response_time_ms`. -/
structure FeedResult where
  feed_url : String
  feed_name : String
  articles : List Article
  success : Bool
  error : Option String := none
  status_code : Option Nat := none
  final_url : Option String := none
  content_type : Option String := none
  attempts : Nat := 1
  entry_count : Nat := 0
  bozo : Bool := false
  bozo_exception : Option String := none
  deriving Repr, DecidableEq

/-- `generate_article_id(url)`: first 16 hex characters of the SHA-256
of the URL. -/
def generate_article_id (url : String) : String :=
  (sha256hex url).take 16

/-- Python `sep.join(parts)`. -/
def joinSep (sep : String) : List String → String
  | [] => ""
  | [p] => p
  | p :: q :: rest => p ++ sep ++ joinSep sep (q :: rest)

/-- `_format_http_error(response, attempt_summaries)`: compact error
message with the status, URL, per-attempt summaries and content type
(the summaries part is appended only for a non-empty list, and
`if content_type := ...:` is Python-falsy on `None` and `""`). -/
def _format_http_error (response : HttpResponse)
    (attempt_summaries : List String) : String :=
  joinSep " | "
    (["HTTP " ++ toString response.status_code ++ " for " ++ response.url] ++
     (if attempt_summaries.isEmpty then []
      else ["attempts: " ++ joinSep ", " attempt_summaries]) ++
     (match response.content_type with
      | some ct => if ct = "" then [] else ["content-type: " ++ ct]
      | none => []))

/-- The header-profile loop of `fetch_feed`, unrolled: the first attempt
uses `FEED_AGENT_HEADERS`; on a status in
`BOT_FILTER_RETRY_STATUS_CODES` (and only then, since the
`headers is FEED_AGENT_HEADERS` guard holds only in the first
iteration) a second attempt uses `BROWSER_HEADERS`; any other status
(or a status `< 400`) ends the loop.  Returns the final response, the
attempt count, and `attempt_summaries`. -/
def runAttempts (resp1 resp2 : HttpResponse) : HttpResponse × Nat × List String :=
  let s1 := toString resp1.status_code ++ " (feed-agent)"
  if resp1.status_code < 400 then (resp1, 1, [s1])
  else if resp1.status_code ∈ BOT_FILTER_RETRY_STATUS_CODES then
    (resp2, 2, [s1, toString resp2.status_code ++ " (browser)"])
  else (resp1, 1, [s1])

/-- The entry-collection loop of `fetch_feed`: skip entries without a
resolvable date, entries older than the cutoff and entries without a
link; stop once `max_articles` articles are collected.  (The caller
scans at most `2 * max_articles` raw entries.) -/
def entryLoop (cutoff : Int) (category feed_url actual_feed_name : String)
    (max_articles : Nat) :
    List FeedEntry → List Article → List Article
  | [], acc => acc
  | e :: rest, acc =>
    match e.resolvedDate with
    | none => entryLoop cutoff category feed_url actual_feed_name max_articles
        rest acc
    | some published =>
      if published.toInstant < cutoff then
        entryLoop cutoff category feed_url actual_feed_name max_articles rest acc
      else if e.link = "" then
        entryLoop cutoff category feed_url actual_feed_name max_articles rest acc
      else
        let acc' := acc ++
          [{ id := generate_article_id e.link, url := e.link,
             title := e.title.getD "Untitled", author := e.author,
             feed_name := actual_feed_name, feed_url := feed_url,
             published := published, content := "",
             category := category }]
        if max_articles ≤ acc'.length then acc'
        else entryLoop cutoff category feed_url actual_feed_name max_articles
          rest acc'

/-- `fetch_feed` (`src/ingest/feeds.py`): run the attempt loop, fail on
a final status `>= 400` with a diagnosable message, fail on a parse
warning with an exception and zero entries, and otherwise succeed with
the collected articles (`bozo` flagged through).  `cutoff` is the
externally computed `now - timedelta(hours=lookback_hours)`. -/
def fetch_feed (resp1 resp2 : HttpResponse) (doc : ParsedFeed)
    (feed_url feed_name category : String) (cutoff : Int)
    (max_articles : Nat) : FeedResult :=
  let r := runAttempts resp1 resp2
  let response := r.1
  let attempts := r.2.1
  let attempt_summaries := r.2.2
  if 400 ≤ response.status_code then
    { feed_url := feed_url, feed_name := feed_name, articles := [],
      success := false,
      error := some (_format_http_error response attempt_summaries),
      status_code := some response.status_code,
      final_url := some response.url,
      content_type := response.content_type,
      attempts := attempts }
  else
    let bozoExc :=
      if doc.bozo && doc.bozo_exception.isSome then doc.bozo_exception
      else none
    if doc.bozo && doc.bozo_exception.isSome && doc.entries.isEmpty then
      let error_msg :=
        match doc.bozo_exception with
        | some s => if s = "" then "Unknown feed parse error" else s
        | none => "Unknown feed parse error"
      { feed_url := feed_url, feed_name := feed_name, articles := [],
        success := false, error := some error_msg,
        status_code := some response.status_code,
        final_url := some response.url,
        content_type := response.content_type,
        attempts := attempts, bozo := true, bozo_exception := some error_msg }
    else
      let actual_feed_name := doc.title.getD feed_name
      { feed_url := feed_url, feed_name := actual_feed_name,
        articles := entryLoop cutoff category feed_url actual_feed_name
          max_articles (doc.entries.take (max_articles * 2)) [],
        success := true,
        status_code := some response.status_code,
        final_url := some response.url,
        content_type := response.content_type,
        attempts := attempts, entry_count := doc.entries.length,
        bozo := doc.bozo, bozo_exception := bozoExc }

/-! ### Claims C5, C6 (fetch retry policy, bozo leniency) -/

/-- An infix stays an infix after extending on the left. -/
theorem isInfix_append_left {α : Type} {x m : List α} (a : List α)
    (h : x <:+: m) : x <:+: a ++ m := by
  obtain ⟨s, t, rfl⟩ := h
  exact ⟨a ++ s, t, by simp⟩

/-- An infix stays an infix after extending on the right. -/
theorem isInfix_append_right {α : Type} {x m : List α} (a : List α)
    (h : x <:+: m) : x <:+: m ++ a := by
  obtain ⟨s, t, rfl⟩ := h
  exact ⟨s, t ++ a, by simp⟩

/-- Every part of a join is contained in the join. -/
theorem infix_joinSep {x : String} (sep : String) :
    ∀ {parts : List String}, x ∈ parts →
      x.data <:+: (joinSep sep parts).data := by
  intro parts
  induction parts with
  | nil => intro hx; cases hx
  | cons p rest ih =>
    intro hx
    cases rest with
    | nil =>
      rcases List.mem_cons.mp hx with rfl | hx'
      · exact List.infix_refl _
      · cases hx'
    | cons q t =>
      rcases List.mem_cons.mp hx with rfl | hx'
      · show x.data <:+: ((x ++ sep) ++ joinSep sep (q :: t)).data
        rw [String.data_append, String.data_append]
        exact isInfix_append_right _
          (isInfix_append_right _ (List.infix_refl x.data))
      · show x.data <:+: ((p ++ sep) ++ joinSep sep (q :: t)).data
        rw [String.data_append]
        exact isInfix_append_left _ (ih hx')

/-- `_format_http_error` contains the final status code, the URL, and
every attempt summary. -/
theorem format_http_error_contains (response : HttpResponse)
    (attempt_summaries : List String) :
    (toString response.status_code).data <:+:
      (_format_http_error response attempt_summaries).data ∧
    response.url.data <:+:
      (_format_http_error response attempt_summaries).data ∧
    ∀ s ∈ attempt_summaries,
      s.data <:+: (_format_http_error response attempt_summaries).data := by
  unfold _format_http_error
  have hp1data :
      ("HTTP " ++ toString response.status_code ++ " for " ++
        response.url).data =
      (("HTTP ".data ++ (toString response.status_code).data) ++
        " for ".data) ++ response.url.data := by
    rw [String.data_append, String.data_append, String.data_append]
  have hp1 : ("HTTP " ++ toString response.status_code ++ " for " ++
      response.url) ∈
      (["HTTP " ++ toString response.status_code ++ " for " ++ response.url] ++
       (if attempt_summaries.isEmpty then []
        else ["attempts: " ++ joinSep ", " attempt_summaries]) ++
       (match response.content_type with
        | some ct => if ct = "" then [] else ["content-type: " ++ ct]
        | none => [])) := by simp
  have hinf1 := infix_joinSep " | " hp1
  refine ⟨List.IsInfix.trans ?_ hinf1, List.IsInfix.trans ?_ hinf1, ?_⟩
  · rw [hp1data]
    exact isInfix_append_right _ (isInfix_append_right _
      (isInfix_append_left _ (List.infix_refl _)))
  · rw [hp1data]
    exact ⟨("HTTP ".data ++ (toString response.status_code).data) ++
      " for ".data, [], by simp⟩
  · intro s hs
    have hne : attempt_summaries.isEmpty = false := by
      cases attempt_summaries with
      | nil => cases hs
      | cons a t => rfl
    have hap : ("attempts: " ++ joinSep ", " attempt_summaries) ∈
        (["HTTP " ++ toString response.status_code ++ " for " ++
          response.url] ++
         (if attempt_summaries.isEmpty then []
          else ["attempts: " ++ joinSep ", " attempt_summaries]) ++
         (match response.content_type with
          | some ct => if ct = "" then [] else ["content-type: " ++ ct]
          | none => [])) := by
      simp [hne]
    refine List.IsInfix.trans ?_ (infix_joinSep " | " hap)
    rw [String.data_append]
    exact isInfix_append_left _ (infix_joinSep ", " hs)

/-- `runAttempts` when the first response is below 400. -/
theorem runAttempts_ok {resp1 : HttpResponse} (resp2 : HttpResponse)
    (h : resp1.status_code < 400) :
    runAttempts resp1 resp2 =
      (resp1, 1, [toString resp1.status_code ++ " (feed-agent)"]) := by
  unfold runAttempts
  rw [if_pos h]

/-- `runAttempts` on a bot-filter status: one browser-header retry. -/
theorem runAttempts_retry {resp1 : HttpResponse} (resp2 : HttpResponse)
    (h4 : ¬ resp1.status_code < 400)
    (h : resp1.status_code ∈ BOT_FILTER_RETRY_STATUS_CODES) :
    runAttempts resp1 resp2 =
      (resp2, 2, [toString resp1.status_code ++ " (feed-agent)",
                  toString resp2.status_code ++ " (browser)"]) := by
  unfold runAttempts
  rw [if_neg h4, if_pos h]

/-- `runAttempts` on any other error status: no retry. -/
theorem runAttempts_fail {resp1 : HttpResponse} (resp2 : HttpResponse)
    (h4 : ¬ resp1.status_code < 400)
    (h : resp1.status_code ∉ BOT_FILTER_RETRY_STATUS_CODES) :
    runAttempts resp1 resp2 =
      (resp1, 1, [toString resp1.status_code ++ " (feed-agent)"]) := by
  unfold runAttempts
  rw [if_neg h4, if_neg h]

/-- `fetch_feed` on a final status `>= 400`: the HTTP-failure result. -/
theorem fetch_feed_httpfail (resp1 resp2 : HttpResponse) (doc : ParsedFeed)
    (feed_url feed_name category : String) (cutoff : Int) (max_articles : Nat)
    (hge : 400 ≤ (runAttempts resp1 resp2).1.status_code) :
    fetch_feed resp1 resp2 doc feed_url feed_name category cutoff max_articles =
      { feed_url := feed_url, feed_name := feed_name, articles := [],
        success := false,
        error := some (_format_http_error (runAttempts resp1 resp2).1
          (runAttempts resp1 resp2).2.2),
        status_code := some (runAttempts resp1 resp2).1.status_code,
        final_url := some (runAttempts resp1 resp2).1.url,
        content_type := (runAttempts resp1 resp2).1.content_type,
        attempts := (runAttempts resp1 resp2).2.1 } := by
  simp only [fetch_feed]
  rw [if_pos hge]

/-- `fetch_feed` past the HTTP check with a usable parse: success. -/
theorem fetch_feed_success_fields (resp1 resp2 : HttpResponse)
    (doc : ParsedFeed) (feed_url feed_name category : String) (cutoff : Int)
    (max_articles : Nat)
    (hlt : ¬ 400 ≤ (runAttempts resp1 resp2).1.status_code)
    (hparse : ¬(doc.bozo = true ∧ doc.bozo_exception.isSome = true ∧
      doc.entries = [])) :
    (fetch_feed resp1 resp2 doc feed_url feed_name category cutoff
      max_articles).success = true ∧
    (fetch_feed resp1 resp2 doc feed_url feed_name category cutoff
      max_articles).attempts = (runAttempts resp1 resp2).2.1 ∧
    (fetch_feed resp1 resp2 doc feed_url feed_name category cutoff
      max_articles).bozo = doc.bozo := by
  have hcond : (doc.bozo && doc.bozo_exception.isSome && doc.entries.isEmpty)
      = false := by
    by_contra hc
    rw [Bool.not_eq_false] at hc
    simp only [Bool.and_eq_true] at hc
    exact hparse ⟨hc.1.1, hc.1.2, List.isEmpty_iff.mp hc.2⟩
  simp only [fetch_feed]
  rw [if_neg hlt, if_neg (by simp [hcond])]
  exact ⟨rfl, rfl, rfl⟩

/-- `fetch_feed` past the HTTP check with a fatal parse warning
(exception recorded, zero entries): failure flagged `bozo`. -/
theorem fetch_feed_parsefail (resp1 resp2 : HttpResponse) (doc : ParsedFeed)
    (feed_url feed_name category : String) (cutoff : Int) (max_articles : Nat)
    (hlt : ¬ 400 ≤ (runAttempts resp1 resp2).1.status_code)
    (hb : doc.bozo = true) (he : doc.bozo_exception.isSome = true)
    (hent : doc.entries = []) :
    (fetch_feed resp1 resp2 doc feed_url feed_name category cutoff
      max_articles).success = false ∧
    (fetch_feed resp1 resp2 doc feed_url feed_name category cutoff
      max_articles).bozo = true ∧
    (fetch_feed resp1 resp2 doc feed_url feed_name category cutoff
      max_articles).attempts = (runAttempts resp1 resp2).2.1 := by
  have hcond : (doc.bozo && doc.bozo_exception.isSome && doc.entries.isEmpty)
      = true := by
    rw [hb, he, hent]
    rfl
  simp only [fetch_feed]
  rw [if_neg hlt, if_pos hcond]
  exact ⟨rfl, rfl, rfl⟩

/-- **C5** (counterexample).  The claim asserts unconditionally that a
first response of 403 followed by 200 yields `success=true` with
`attempts=2`; but when the 200 body fails to parse (a bozo exception
with zero entries — e.g. an HTML error page served with status 200),
`fetch_feed` returns `success=false` (with `attempts=2`). -/
theorem c5_counterexample :
    (fetch_feed ⟨403, "https://e.com/feed", none⟩
        ⟨200, "https://e.com/feed", none⟩
        ⟨none, true, some "not well-formed (invalid token)", []⟩
        "https://e.com/feed" "Feed" "Tech" 0 10).success = false ∧
    (fetch_feed ⟨403, "https://e.com/feed", none⟩
        ⟨200, "https://e.com/feed", none⟩
        ⟨none, true, some "not well-formed (invalid token)", []⟩
        "https://e.com/feed" "Feed" "Tech" 0 10).attempts = 2 := by
  decide

/-- **C5** (amended).  For every feed fetch: the first HTTP attempt uses
the feed-agent header set; a second (browser-header) attempt happens
iff the first status is 403 or 404; there are never more than 2
attempts (and the returned `attempts` is the loop's count); a first
response of 403 followed by 200 whose body parses usably (no fatal
parse warning with zero entries) yields `success=true` with
`attempts=2`; a first response of 500 yields `success=false` with
`attempts=1`; and after a final failed attempt the error message
includes the final status code, the URL, and the status code of every
attempt (each attempt's status summary appears in it). -/
theorem c5_theorem (resp1 resp2 : HttpResponse) (doc : ParsedFeed)
    (feed_url feed_name category : String) (cutoff : Int)
    (max_articles : Nat) :
    (runAttempts resp1 resp2).2.2.head? =
      some (toString resp1.status_code ++ " (feed-agent)") ∧
    ((runAttempts resp1 resp2).2.1 = 2 ↔
      (resp1.status_code = 403 ∨ resp1.status_code = 404)) ∧
    (runAttempts resp1 resp2).2.1 ≤ 2 ∧
    (fetch_feed resp1 resp2 doc feed_url feed_name category cutoff
      max_articles).attempts = (runAttempts resp1 resp2).2.1 ∧
    (resp1.status_code = 403 → resp2.status_code = 200 →
      ¬(doc.bozo = true ∧ doc.bozo_exception.isSome = true ∧
        doc.entries = []) →
      (fetch_feed resp1 resp2 doc feed_url feed_name category cutoff
        max_articles).success = true ∧
      (fetch_feed resp1 resp2 doc feed_url feed_name category cutoff
        max_articles).attempts = 2) ∧
    (resp1.status_code = 500 →
      (fetch_feed resp1 resp2 doc feed_url feed_name category cutoff
        max_articles).success = false ∧
      (fetch_feed resp1 resp2 doc feed_url feed_name category cutoff
        max_articles).attempts = 1) ∧
    (400 ≤ (runAttempts resp1 resp2).1.status_code →
      ∃ msg,
        (fetch_feed resp1 resp2 doc feed_url feed_name category cutoff
          max_articles).error = some msg ∧
        (toString (runAttempts resp1 resp2).1.status_code).data <:+:
          msg.data ∧
        (runAttempts resp1 resp2).1.url.data <:+: msg.data ∧
        (toString resp1.status_code).data <:+: msg.data ∧
        ((runAttempts resp1 resp2).2.1 = 2 →
          (toString resp2.status_code).data <:+: msg.data) ∧
        ∀ s ∈ (runAttempts resp1 resp2).2.2, s.data <:+: msg.data) := by
  have hattempts :
      (fetch_feed resp1 resp2 doc feed_url feed_name category cutoff
        max_articles).attempts = (runAttempts resp1 resp2).2.1 := by
    by_cases hge : 400 ≤ (runAttempts resp1 resp2).1.status_code
    · rw [fetch_feed_httpfail resp1 resp2 doc feed_url feed_name category
        cutoff max_articles hge]
    · by_cases hp : doc.bozo = true ∧ doc.bozo_exception.isSome = true ∧
        doc.entries = []
      · exact (fetch_feed_parsefail resp1 resp2 doc feed_url feed_name
          category cutoff max_articles hge hp.1 hp.2.1 hp.2.2).2.2
      · exact (fetch_feed_success_fields resp1 resp2 doc feed_url feed_name
          category cutoff max_articles hge hp).2.1
  have herr : 400 ≤ (runAttempts resp1 resp2).1.status_code →
      ∃ msg,
        (fetch_feed resp1 resp2 doc feed_url feed_name category cutoff
          max_articles).error = some msg ∧
        (toString (runAttempts resp1 resp2).1.status_code).data <:+:
          msg.data ∧
        (runAttempts resp1 resp2).1.url.data <:+: msg.data ∧
        (toString resp1.status_code).data <:+: msg.data ∧
        ((runAttempts resp1 resp2).2.1 = 2 →
          (toString resp2.status_code).data <:+: msg.data) ∧
        ∀ s ∈ (runAttempts resp1 resp2).2.2, s.data <:+: msg.data := by
    intro hge
    refine ⟨_format_http_error (runAttempts resp1 resp2).1
      (runAttempts resp1 resp2).2.2, ?_, ?_, ?_, ?_, ?_, ?_⟩
    · rw [fetch_feed_httpfail resp1 resp2 doc feed_url feed_name category
        cutoff max_articles hge]
    · exact (format_http_error_contains _ _).1
    · exact (format_http_error_contains _ _).2.1
    · -- the first attempt's status summary is always the head
      have hs1 : (toString resp1.status_code ++ " (feed-agent)") ∈
          (runAttempts resp1 resp2).2.2 := by
        by_cases h1 : resp1.status_code < 400
        · rw [runAttempts_ok resp2 h1]; exact List.mem_cons_self _ _
        · by_cases h2 : resp1.status_code ∈ BOT_FILTER_RETRY_STATUS_CODES
          · rw [runAttempts_retry resp2 h1 h2]; exact List.mem_cons_self _ _
          · rw [runAttempts_fail resp2 h1 h2]; exact List.mem_cons_self _ _
      refine List.IsInfix.trans ?_
        ((format_http_error_contains _ _).2.2 _ hs1)
      rw [String.data_append]
      exact isInfix_append_right _ (List.infix_refl _)
    · intro h2att
      by_cases h1 : resp1.status_code < 400
      · rw [runAttempts_ok resp2 h1] at h2att
        cases h2att
      · by_cases h2 : resp1.status_code ∈ BOT_FILTER_RETRY_STATUS_CODES
        · have hs2 : (toString resp2.status_code ++ " (browser)") ∈
              (runAttempts resp1 resp2).2.2 := by
            rw [runAttempts_retry resp2 h1 h2]
            simp
          refine List.IsInfix.trans ?_
            ((format_http_error_contains _ _).2.2 _ hs2)
          rw [String.data_append]
          exact isInfix_append_right _ (List.infix_refl _)
        · rw [runAttempts_fail resp2 h1 h2] at h2att
          cases h2att
    · exact (format_http_error_contains _ _).2.2
  by_cases h1 : resp1.status_code < 400
  · rw [runAttempts_ok resp2 h1] at hattempts herr ⊢
    refine ⟨rfl, ?_, ?_, hattempts, ?_, ?_, herr⟩
    · constructor
      · intro h; simp at h
      · rintro (h | h) <;> rw [h] at h1 <;> omega
    · simp
    · intro h403
      rw [h403] at h1
      omega
    · intro h500
      rw [h500] at h1
      omega
  · by_cases h2 : resp1.status_code ∈ BOT_FILTER_RETRY_STATUS_CODES
    · have h2' : resp1.status_code = 403 ∨ resp1.status_code = 404 := by
        simpa [BOT_FILTER_RETRY_STATUS_CODES] using h2
      rw [runAttempts_retry resp2 h1 h2] at hattempts herr ⊢
      refine ⟨rfl, ?_, ?_, hattempts, ?_, ?_, herr⟩
      · exact ⟨fun _ => h2', fun _ => rfl⟩
      · simp
      · intro h403 h200 hparse
        have hok : ¬ 400 ≤ (runAttempts resp1 resp2).1.status_code := by
          rw [runAttempts_retry resp2 h1 h2, h200]
          omega
        refine ⟨(fetch_feed_success_fields resp1 resp2 doc feed_url
          feed_name category cutoff max_articles hok hparse).1, ?_⟩
        rw [(fetch_feed_success_fields resp1 resp2 doc feed_url feed_name
          category cutoff max_articles hok hparse).2.1,
          runAttempts_retry resp2 h1 h2]
      · intro h500
        rcases h2' with h | h <;> rw [h] at h500 <;> cases h500
    · have h2' : ¬(resp1.status_code = 403 ∨ resp1.status_code = 404) := by
        simpa [BOT_FILTER_RETRY_STATUS_CODES] using h2
      rw [runAttempts_fail resp2 h1 h2] at hattempts herr ⊢
      refine ⟨rfl, ?_, ?_, hattempts, ?_, ?_, herr⟩
      · constructor
        · intro h; simp at h
        · intro h; exact absurd h h2'
      · simp
      · intro h403
        exact absurd (Or.inl h403) h2'
      · intro h500
        have hge : 400 ≤ (runAttempts resp1 resp2).1.status_code := by
          rw [runAttempts_fail resp2 h1 h2, h500]
          omega
        refine ⟨?_, ?_⟩
        · rw [fetch_feed_httpfail resp1 resp2 doc feed_url feed_name
            category cutoff max_articles hge]
        · rw [hattempts]

/-- Witness for C5 at concrete inputs: a 403-then-200 fetch of a clean
feed document, and a 500 fetch with its diagnosable error message. -/
theorem c5_witness :
    (((fetch_feed ⟨403, "https://e.com/feed", none⟩
        ⟨200, "https://e.com/feed", none⟩ ⟨none, false, none, []⟩
        "https://e.com/feed" "Feed" "Tech" 0 10).success = true ∧
      (fetch_feed ⟨403, "https://e.com/feed", none⟩
        ⟨200, "https://e.com/feed", none⟩ ⟨none, false, none, []⟩
        "https://e.com/feed" "Feed" "Tech" 0 10).attempts = 2) ∧
     ((fetch_feed ⟨500, "https://e.com/feed", none⟩
        ⟨200, "https://e.com/feed", none⟩ ⟨none, false, none, []⟩
        "https://e.com/feed" "Feed" "Tech" 0 10).success = false ∧
      (fetch_feed ⟨500, "https://e.com/feed", none⟩
        ⟨200, "https://e.com/feed", none⟩ ⟨none, false, none, []⟩
        "https://e.com/feed" "Feed" "Tech" 0 10).attempts = 1)) ∧
    (∃ msg,
      (fetch_feed ⟨500, "https://e.com/feed", none⟩
        ⟨200, "https://e.com/feed", none⟩ ⟨none, false, none, []⟩
        "https://e.com/feed" "Feed" "Tech" 0 10).error = some msg ∧
      (toString (runAttempts ⟨500, "https://e.com/feed", none⟩
        ⟨200, "https://e.com/feed", none⟩).1.status_code).data <:+:
        msg.data ∧
      (runAttempts ⟨500, "https://e.com/feed", none⟩
        ⟨200, "https://e.com/feed", none⟩).1.url.data <:+: msg.data ∧
      (toString (500 : Nat)).data <:+: msg.data ∧
      ((runAttempts ⟨500, "https://e.com/feed", none⟩
          ⟨200, "https://e.com/feed", none⟩).2.1 = 2 →
        (toString (200 : Nat)).data <:+: msg.data) ∧
      ∀ s ∈ (runAttempts ⟨500, "https://e.com/feed", none⟩
        ⟨200, "https://e.com/feed", none⟩).2.2, s.data <:+: msg.data) :=
  ⟨⟨(c5_theorem ⟨403, "https://e.com/feed", none⟩
      ⟨200, "https://e.com/feed", none⟩ ⟨none, false, none, []⟩
      "https://e.com/feed" "Feed" "Tech" 0 10).2.2.2.2.1 rfl rfl (by decide),
    (c5_theorem ⟨500, "https://e.com/feed", none⟩
      ⟨200, "https://e.com/feed", none⟩ ⟨none, false, none, []⟩
      "https://e.com/feed" "Feed" "Tech" 0 10).2.2.2.2.2.1 rfl⟩,
   (c5_theorem ⟨500, "https://e.com/feed", none⟩
      ⟨200, "https://e.com/feed", none⟩ ⟨none, false, none, []⟩
      "https://e.com/feed" "Feed" "Tech" 0 10).2.2.2.2.2.2 (by decide)⟩

/-- **C6**.  For every fetch whose HTTP phase succeeds and whose
document carries a parse warning (bozo with a recorded exception):
zero entries makes the fetch a failure, at least one entry makes it a
success flagged `bozo=true`. -/
theorem c6_theorem (resp1 resp2 : HttpResponse) (doc : ParsedFeed)
    (feed_url feed_name category : String) (cutoff : Int) (max_articles : Nat)
    (hok : (runAttempts resp1 resp2).1.status_code < 400)
    (hbozo : doc.bozo = true) (hexc : doc.bozo_exception.isSome = true) :
    (doc.entries = [] →
      (fetch_feed resp1 resp2 doc feed_url feed_name category cutoff
        max_articles).success = false ∧
      (fetch_feed resp1 resp2 doc feed_url feed_name category cutoff
        max_articles).bozo = true) ∧
    (doc.entries ≠ [] →
      (fetch_feed resp1 resp2 doc feed_url feed_name category cutoff
        max_articles).success = true ∧
      (fetch_feed resp1 resp2 doc feed_url feed_name category cutoff
        max_articles).bozo = true) := by
  have hlt : ¬ 400 ≤ (runAttempts resp1 resp2).1.status_code := by omega
  constructor
  · intro hent
    exact ⟨(fetch_feed_parsefail resp1 resp2 doc feed_url feed_name category
        cutoff max_articles hlt hbozo hexc hent).1,
      (fetch_feed_parsefail resp1 resp2 doc feed_url feed_name category
        cutoff max_articles hlt hbozo hexc hent).2.1⟩
  · intro hent
    have hparse : ¬(doc.bozo = true ∧ doc.bozo_exception.isSome = true ∧
        doc.entries = []) := fun h => hent h.2.2
    refine ⟨(fetch_feed_success_fields resp1 resp2 doc feed_url feed_name
      category cutoff max_articles hlt hparse).1, ?_⟩
    rw [(fetch_feed_success_fields resp1 resp2 doc feed_url feed_name
      category cutoff max_articles hlt hparse).2.2, hbozo]

/-- Witness for C6 at a concrete input: a 200 fetch whose document has
an encoding-override warning and one usable entry. -/
theorem c6_witness :
    ((runAttempts ⟨200, "https://e.com/feed", none⟩
        ⟨200, "https://e.com/feed", none⟩).1.status_code < 400 ∧
      (⟨some "Feed", true, some "CharacterEncodingOverride",
        [⟨"https://e.com/a1", some "T", "A", some ⟨2025, 3, 1, 12, 0, 0, 0⟩⟩]⟩ :
        ParsedFeed).bozo = true ∧
      (⟨some "Feed", true, some "CharacterEncodingOverride",
        [⟨"https://e.com/a1", some "T", "A", some ⟨2025, 3, 1, 12, 0, 0, 0⟩⟩]⟩ :
        ParsedFeed).bozo_exception.isSome = true) ∧
    (((⟨some "Feed", true, some "CharacterEncodingOverride",
        [⟨"https://e.com/a1", some "T", "A", some ⟨2025, 3, 1, 12, 0, 0, 0⟩⟩]⟩ :
        ParsedFeed).entries = [] →
      (fetch_feed ⟨200, "https://e.com/feed", none⟩
        ⟨200, "https://e.com/feed", none⟩
        ⟨some "Feed", true, some "CharacterEncodingOverride",
         [⟨"https://e.com/a1", some "T", "A", some ⟨2025, 3, 1, 12, 0, 0, 0⟩⟩]⟩
        "https://e.com/feed" "Feed" "Tech" 0 10).success = false ∧
      (fetch_feed ⟨200, "https://e.com/feed", none⟩
        ⟨200, "https://e.com/feed", none⟩
        ⟨some "Feed", true, some "CharacterEncodingOverride",
         [⟨"https://e.com/a1", some "T", "A", some ⟨2025, 3, 1, 12, 0, 0, 0⟩⟩]⟩
        "https://e.com/feed" "Feed" "Tech" 0 10).bozo = true) ∧
     ((⟨some "Feed", true, some "CharacterEncodingOverride",
        [⟨"https://e.com/a1", some "T", "A", some ⟨2025, 3, 1, 12, 0, 0, 0⟩⟩]⟩ :
        ParsedFeed).entries ≠ [] →
      (fetch_feed ⟨200, "https://e.com/feed", none⟩
        ⟨200, "https://e.com/feed", none⟩
        ⟨some "Feed", true, some "CharacterEncodingOverride",
         [⟨"https://e.com/a1", some "T", "A", some ⟨2025, 3, 1, 12, 0, 0, 0⟩⟩]⟩
        "https://e.com/feed" "Feed" "Tech" 0 10).success = true ∧
      (fetch_feed ⟨200, "https://e.com/feed", none⟩
        ⟨200, "https://e.com/feed", none⟩
        ⟨some "Feed", true, some "CharacterEncodingOverride",
         [⟨"https://e.com/a1", some "T", "A", some ⟨2025, 3, 1, 12, 0, 0, 0⟩⟩]⟩
        "https://e.com/feed" "Feed" "Tech" 0 10).bozo = true)) :=
  ⟨⟨by decide, rfl, rfl⟩,
    c6_theorem ⟨200, "https://e.com/feed", none⟩
      ⟨200, "https://e.com/feed", none⟩
      ⟨some "Feed", true, some "CharacterEncodingOverride",
       [⟨"https://e.com/a1", some "T", "A", some ⟨2025, 3, 1, 12, 0, 0, 0⟩⟩]⟩
      "https://e.com/feed" "Feed" "Tech" 0 10 (by decide) rfl rfl⟩

end FeedAgent
